import Mathlib

/-!
# bookshelf: the Pub/Sub worker

A shallow embedding of `pubsub_worker/worker.go` (the functions `subscribe`,
`update`, `syncBooksCache`) and of `IndexBook` in `search.go`.

Go strings are Lean `String`s, `int64` identifiers are `Int`s, a Go `error`
result is an `Option Err` (`none` is `nil`), and a `(value, error)` result is an
`Except Err value`.  External collaborators (the record store, the Books
metadata service, the search index, memcache, the Pub/Sub iterator) are state
plus fault oracles gathered in an environment; every collaborator call is
appended to a trace so that the order and number of calls can be stated.
-/

namespace Bookshelf

/-- Go `error` values are represented by their message. -/
abbrev Err := String

/-! ## The `strings` functions used by `update` -/

/-- Insertion of `new` before each of the first `n` runes (and at the end when
the runes run out first): what `strings.Replace` does for an empty `old`. -/
def insertAtRunes (new : List Char) : Nat → List Char → List Char
  | 0, s => s
  | _ + 1, [] => new
  | n + 1, c :: cs => new ++ c :: insertAtRunes new n cs

/-- Left-to-right scan of `strings.Replace` for a non-empty `old`: `n` is the
number of replacements still allowed and `skip` the number of characters of the
match just replaced that are still to be dropped. -/
def replaceScan (old new : List Char) : Nat → Nat → List Char → List Char
  | _, _, [] => []
  | n, skip + 1, _ :: cs => replaceScan old new n skip cs
  | 0, 0, c :: cs => c :: replaceScan old new 0 0 cs
  | n + 1, 0, c :: cs =>
    if old.isPrefixOf (c :: cs) then
      new ++ replaceScan old new n (old.length - 1) cs
    else
      c :: replaceScan old new (n + 1) 0 cs

/-- Go `strings.Replace(s, old, new, n)` for `n ≥ 0`: a copy of `s` with the
first `n` non-overlapping occurrences of `old` replaced by `new`. -/
def stringsReplace (s old new : String) (n : Nat) : String :=
  if old = new ∨ n = 0 then s
  else if old.data = [] then String.mk (insertAtRunes new.data n s.data)
  else String.mk (replaceScan old.data new.data n 0 s.data)

/-- Go `strings.Join(elems, sep)`. -/
def stringsJoin (elems : List String) (sep : String) : String :=
  sep.intercalate elems

/-! ## Data model -/

/-- Modelled from the spec: the record type `bookshelf.Book`, whose declaration
is not among the sources; the fields are the ones the spec lists and `update`
assigns. -/
structure Book where
  ID : Int
  Title : String
  Author : String
  PublishedDate : String
  ImageURL : String
  Description : String
  deriving DecidableEq, Repr

/-- The `ImageLinks` part of a Books API volume (only `Thumbnail` is read). -/
structure ImageLinks where
  Thumbnail : String
  deriving DecidableEq, Repr

/-- The `VolumeInfo` part of a Books API volume; `ImageLinks` is a pointer that
may be nil. -/
structure VolumeInfo where
  Title : String
  Authors : List String
  PublishedDate : String
  Description : String
  ImageLinks : Option ImageLinks
  deriving DecidableEq, Repr

/-- One candidate returned by the metadata lookup.  `update` dereferences
`VolumeInfo` unconditionally, so it is taken as present. -/
structure Volume where
  VolumeInfo : VolumeInfo
  deriving DecidableEq, Repr

/-- The document type stored in the search index (`search.go`). -/
structure Doc where
  Title : String
  deriving DecidableEq, Repr

/-- One delivery from the Pub/Sub iterator: `Seq` identifies the delivery, `Data`
is the payload. -/
structure Msg where
  Seq : Nat
  Data : String
  deriving DecidableEq, Repr

/-- What memcache holds under a key: the payload and its current version
token. -/
structure Entry where
  Object : List Book
  casID : Nat
  deriving DecidableEq, Repr

/-- A memcache item as the client holds it: the key, the decoded payload and the
version token (`casID`) the server handed out with it. -/
structure Item where
  Key : String
  Object : List Book
  casID : Nat
  deriving DecidableEq, Repr

/-- Observable steps, in the order they happen.  The memcache steps carry the
outcome of the call. -/
inductive Event where
  | GetBook (id : Int)
  | VolumesList (title : String)
  | UpdateBook (book : Book)
  | IndexBook (book : Book)
  | ListBooks
  | MemcacheGet (key : String) (got : Option Item)
  | MemcacheCAS (item : Item) (err : Option Err)
  | Done (msg : Msg) (ack : Bool)
  | CountIncr
  | Printf (format : String) (args : List String)
  | Fatal (text : String)
  deriving DecidableEq, Repr

/-- The state the worker acts on. -/
structure World where
  /-- The record store behind `bookshelf.DB`. -/
  books : Int → Option Book
  /-- The documents of the search index `books`, by document id. -/
  docs : String → Option Doc
  /-- The entries of memcache, by key. -/
  cache : String → Option Entry
  /-- The package variable `count`. -/
  count : Int
  /-- Every step taken so far, oldest first. -/
  trace : List Event

/-- Appends one step to the trace. -/
def World.emit (w : World) (e : Event) : World :=
  { w with trace := w.trace ++ [e] }

/-- The steps taken between the earlier state `w` and the later state `w2`. -/
def World.since (w2 w : World) : List Event :=
  w2.trace.drop w.trace.length

/-- The behaviour of the external collaborators.  Each oracle sees the whole
state, trace included, so a collaborator may answer differently on every call. -/
structure Env where
  /-- The outcome of `json.Unmarshal(msg.Data, &id)`. -/
  unmarshal : String → Except Err Int
  /-- A store failure of `DB.GetBook` other than a missing record. -/
  getBookErr : World → Int → Option Err
  /-- The outcome of `booksClient.Volumes.List(title).Do()`. -/
  volumesList : World → String → Except Err (List Volume)
  /-- A failure of `DB.UpdateBook`. -/
  updateBookErr : World → Book → Option Err
  /-- A failure of `search.Open`. -/
  searchOpenErr : World → String → Option Err
  /-- A failure of `index.Put`. -/
  indexPutErr : World → String → Doc → Option Err
  /-- The outcome of `DB.ListBooks()`. -/
  listBooks : World → Except Err (List Book)
  /-- The constant `bookshelf.BooksKey`, declared outside the sources. -/
  BooksKey : String
  /-- The entries memcache holds when the next request reaches it: what other
  clients have written since the state `w` was observed. -/
  concurrentWrites : World → String → Option Entry
  /-- A failure of `memcache.JSON.Get` other than a miss. -/
  memcacheGetErr : World → String → Option Err
  /-- A failure of `memcache.JSON.CompareAndSwap` other than a conflict. -/
  memcacheCASErr : World → Item → Option Err

/-! ## Collaborator operations -/

/-- Modelled from the spec: the record store operation `get(id) -> Record|not-found`
behind `bookshelf.DB.GetBook`, whose implementation is not among the sources. -/
def GetBook (env : Env) (id : Int) (w : World) : Except Err Book × World :=
  let w1 := w.emit (.GetBook id)
  match env.getBookErr w id with
  | some err => (.error err, w1)
  | none =>
    match w.books id with
    | none => (.error "could not find book", w1)
    | some book => (.ok book, w1)

/-- Modelled from the spec: the record store operation `update(Record) -> ok|error`
behind `bookshelf.DB.UpdateBook`, whose implementation is not among the sources:
on success the record stored under the identifier of `book` is `book`, on failure
the store is as before. -/
def UpdateBook (env : Env) (book : Book) (w : World) : Option Err × World :=
  let w1 := w.emit (.UpdateBook book)
  match env.updateBookErr w book with
  | some err => (some err, w1)
  | none => (none, { w1 with books := Function.update w1.books book.ID (some book) })

/-- The metadata lookup `booksClient.Volumes.List(title).Do()`. -/
def VolumesList (env : Env) (title : String) (w : World) :
    Except Err (List Volume) × World :=
  (env.volumesList w title, w.emit (.VolumesList title))

/-- The name of the search index (`search.go`). -/
def BooksIndex : String := "books"

/-- `IndexBook` of `search.go`: opens the index and puts the document
`Doc{book.Title}` under the decimal rendering of the identifier. -/
def IndexBook (env : Env) (book : Book) (w : World) : Option Err × World :=
  let w1 := w.emit (.IndexBook book)
  match env.searchOpenErr w BooksIndex with
  | some err => (some err, w1)
  | none =>
    match env.indexPutErr w (toString book.ID) ⟨book.Title⟩ with
    | some err => (some err, w1)
    | none =>
      (none, { w1 with docs := Function.update w1.docs (toString book.ID) (some ⟨book.Title⟩) })

/-! ## `update` -/

/-- Lines 136-148 of `worker.go`: the fields of `book` after the first candidate
`info` has been merged into it. -/
def enrich (bookID : Int) (book : Book) (info : VolumeInfo) : Book :=
  let book := { book with ID := bookID }
  let book := { book with Title := info.Title }
  let book := { book with Author := stringsJoin info.Authors ", " }
  let book := { book with PublishedDate := info.PublishedDate }
  let book := if book.Description = "" then { book with Description := info.Description } else book
  match info.ImageLinks with
  | some links =>
    if book.ImageURL = "" then
      let url := links.Thumbnail
      { book with ImageURL := stringsReplace url "http://" "https://" 1 }
    else book
  | none => book

/-- The function `update` of `worker.go`; the result `none` is a nil error. -/
def update (env : Env) (bookID : Int) (w : World) : Option Err × World :=
  match GetBook env bookID w with
  | (.error err, w1) => (some err, w1)
  | (.ok book, w1) =>
    match VolumesList env book.Title w1 with
    | (.error err, w2) => (some err, w2)
    | (.ok [], w2) => (none, w2)
    | (.ok (v :: _), w2) =>
      let book := enrich bookID book v.VolumeInfo
      match UpdateBook env book w2 with
      | (some err, w3) => (some err, w3)
      | (none, w3) =>
        match IndexBook env book w3 with
        | (some err, w4) =>
          (none, w4.emit (.Printf "search: failed to update index for book [%v]: %v"
            [toString book.ID, err]))
        | (none, w4) => (none, w4)

/-! ## `subscribe` -/

/-- The body of the goroutine started for a decoded message (lines 102-115 of
`worker.go`), run without interference from other goroutines. -/
def process (env : Env) (msg : Msg) (id : Int) (w : World) : World :=
  match update env id w with
  | (some err, w1) =>
    let w2 := w1.emit (.Printf "[ID %d] could not update: %v" [toString id, err])
    w2.emit (.Done msg false)
  | (none, w1) =>
    let w2 := ({ w1 with count := w1.count + 1 } : World).emit .CountIncr
    let w3 := w2.emit (.Done msg true)
    w3.emit (.Printf "[ID %d] ACK" [toString id])

/-- A goroutine started by `subscribe`: the message and the identifier it
closes over. -/
structure Task where
  msg : Msg
  id : Int
  deriving DecidableEq, Repr

/-- Runs the body of a dispatched goroutine. -/
def Task.run (env : Env) (t : Task) (w : World) : World :=
  process env t.msg t.id w

/-- One iteration of the loop of `subscribe` after a successful `it.Next()`
(lines 94-115): the state it leaves and the goroutine it starts, if any. -/
def receive (env : Env) (msg : Msg) (w : World) : World × Option Task :=
  match env.unmarshal msg.Data with
  | .error _ =>
    let w1 := w.emit (.Printf "could not decode message data: %#v" [msg.Data])
    (w1.emit (.Done msg true), none)
  | .ok id =>
    (w.emit (.Printf "[ID %d] Processing." [toString id]), some ⟨msg, id⟩)

/-- How `subscribe` ends on a finite prefix of the stream. -/
inductive Exit where
  /-- The call `log.Fatalf` ended the process, and with it every goroutine that
  had not finished. -/
  | Fatal (err : Err)
  /-- The prefix is used up: `it.Next()` is waiting for the next message. -/
  | Waiting
  deriving DecidableEq, Repr

/-- Takes the goroutine at position `i` out of the pending ones. -/
def pick : Nat → List Task → Option (Task × List Task)
  | _, [] => none
  | 0, t :: ts => some (t, ts)
  | i + 1, t :: ts =>
    match pick i ts with
    | none => none
    | some (x, others) => some (x, t :: others)

/-- The Go scheduler between two results of `it.Next()`: the pending goroutines
at the positions `picks`, taken one after the other, run to completion.  A
goroutine runs as one step; interleavings inside `update` are not represented. -/
def runPicked (env : Env) : List Nat → World → List Task → World × List Task
  | [], w, pending => (w, pending)
  | i :: picks, w, pending =>
    match pick i pending with
    | none => runPicked env picks w pending
    | some (t, others) => runPicked env picks (t.run env w) others

/-- Lets every pending goroutine run to completion, oldest first: what happens
while the loop waits in `it.Next()`. -/
def runAll (env : Env) : List Task → World → World
  | [], w => w
  | t :: ts, w => runAll env ts (t.run env w)

/-- The loop of `subscribe` over the results of successive `it.Next()` calls.
`sched` says, for each iteration, which pending goroutines run before the next
result of `it.Next()` arrives; `pending` are the goroutines started and not yet
run.  A pull error ends the process with the pending goroutines never run; they
are returned as the third component. -/
def subscribeLoop (env : Env) : List (Except Err Msg) → List (List Nat) → World →
    List Task → Exit × World × List Task
  | [], _, w, pending => (.Waiting, runAll env pending w, [])
  | .error err :: _, _, w, pending =>
    (.Fatal err, w.emit (.Fatal ("could not pull: " ++ err)), pending)
  | .ok msg :: rest, sched, w, pending =>
    match receive env msg w with
    | (w1, started) =>
      match runPicked env (sched.headD []) w1 (pending ++ started.toList) with
      | (w2, pending2) => subscribeLoop env rest sched.tail w2 pending2

/-- The function `subscribe` of `worker.go`: `pull` is the outcome of
`subscription.Pull`, on success the results of the `it.Next()` calls. -/
def subscribe (env : Env) (pull : Except Err (List (Except Err Msg)))
    (sched : List (List Nat)) (w : World) : Exit × World × List Task :=
  match pull with
  | .error err => (.Fatal err, w.emit (.Fatal err), [])
  | .ok stream => subscribeLoop env stream sched w []

/-! ## `syncBooksCache` -/

/-- Modelled from the spec: the record store operation `listAll()` behind
`bookshelf.DB.ListBooks`, whose implementation is not among the sources. -/
def ListBooks (env : Env) (w : World) : Except Err (List Book) × World :=
  (env.listBooks w, w.emit .ListBooks)

/-- Modelled from the spec: the cache operation
`get(key) -> (payload, versionToken)|miss` behind `memcache.JSON.Get`. -/
def memcacheGet (env : Env) (key : String) (w : World) : Except Err Item × World :=
  let w1 := { w with cache := env.concurrentWrites w }
  match env.memcacheGetErr w key with
  | some err => (.error err, w1.emit (.MemcacheGet key none))
  | none =>
    match w1.cache key with
    | none => (.error "memcache: cache miss", w1.emit (.MemcacheGet key none))
    | some entry =>
      (.ok ⟨key, entry.Object, entry.casID⟩,
        w1.emit (.MemcacheGet key (some ⟨key, entry.Object, entry.casID⟩)))

/-- Modelled from the spec: the cache operation
`compareAndSwap(key, newPayload, expectedVersionToken) -> ok|conflict|error`
behind `memcache.JSON.CompareAndSwap`: the write takes place only when the entry
still carries the version token of `item`, and then gets a newer token. -/
def memcacheCompareAndSwap (env : Env) (item : Item) (w : World) : Option Err × World :=
  let w1 := { w with cache := env.concurrentWrites w }
  match env.memcacheCASErr w item with
  | some err => (some err, w1.emit (.MemcacheCAS item (some err)))
  | none =>
    match w1.cache item.Key with
    | none =>
      (some "memcache: item not stored", w1.emit (.MemcacheCAS item (some "memcache: item not stored")))
    | some cur =>
      if cur.casID = item.casID then
        (none, { w1 with
          cache := Function.update w1.cache item.Key (some ⟨item.Object, cur.casID + 1⟩)
          trace := w1.trace ++ [.MemcacheCAS item none] })
      else
        (some "memcache: compare-and-swap conflict",
          w1.emit (.MemcacheCAS item (some "memcache: compare-and-swap conflict")))

/-- The action handed to `retry.Retry` (lines 175-190 of `worker.go`). -/
def syncAttempt (env : Env) (newBooks : List Book) (_attempt : Nat) (w : World) :
    Option Err × World :=
  match memcacheGet env env.BooksKey w with
  | (.error err, w1) =>
    (some err, w1.emit (.Printf
      "sync-worker: failed to get books from cache; sync failed, will retry: %v" [err]))
  | (.ok item, w1) =>
    let item := { item with Object := newBooks }
    match memcacheCompareAndSwap env item w1 with
    | (some err, w2) =>
      (some err, w2.emit (.Printf
        "sync-worker: failed to set books in cache; sync failed, will retry: %v" [err]))
    | (none, w2) => (none, w2)

/-- The loop of `retry.Retry`: `fuel` is the number of attempts still allowed,
`attempt` the number of the next attempt and `err` the last error. -/
def retryLoop (action : Nat → World → Option Err × World) :
    Nat → Nat → Option Err → World → Option Err × World
  | 0, _, err, w => (err, w)
  | fuel + 1, attempt, err, w =>
    if attempt = 0 ∨ err ≠ none then
      match action attempt w with
      | (err2, w2) => retryLoop action fuel (attempt + 1) err2 w2
    else (err, w)

/-- Modelled from the spec: `retry.Retry(action, strategy.Limit(limit),
strategy.Backoff(...))` of the external retry library, a bounded retry block of
at most `limit` attempts that stops at the first attempt returning nil.  The
waits between attempts are not represented; what other clients write meanwhile
is part of `Env.concurrentWrites`. -/
def Retry (action : Nat → World → Option Err × World) (limit : Nat) (w : World) :
    Option Err × World :=
  retryLoop action limit 0 none w

/-- One wake-up of `syncBooksCache` (lines 167-190 of `worker.go`). -/
def syncCycle (env : Env) (w : World) : World :=
  match ListBooks env w with
  | (.error err, w1) =>
    w1.emit (.Printf "sync-worker: failed to get list from DB; sync failed: %v" [err])
  | (.ok newBooks, w1) => (Retry (syncAttempt env newBooks) 5 w1).2

/-- The function `syncBooksCache` of `worker.go` over the first `ticks` ticks of
the timer. -/
def syncBooksCache (env : Env) : Nat → World → World
  | 0, w => w
  | ticks + 1, w => syncBooksCache env ticks (syncCycle env w)

/-! ## Vocabulary of the statements -/

/-- The records handed to the record store's update operation in a run of steps. -/
def persisted : List Event → List Book
  | [] => []
  | .UpdateBook b :: es => b :: persisted es
  | _ :: es => persisted es

/-- The records handed to the search index in a run of steps. -/
def indexed : List Event → List Book
  | [] => []
  | .IndexBook b :: es => b :: indexed es
  | _ :: es => indexed es

/-- The acknowledge and redeliver decisions issued in a run of steps. -/
def decisions : List Event → List (Msg × Bool)
  | [] => []
  | .Done m ack :: es => (m, ack) :: decisions es
  | _ :: es => decisions es

/-- How often `Done(ack)` is called on `msg` in a run of steps. -/
def timesDone (msg : Msg) (ack : Bool) (steps : List Event) : Nat :=
  (decisions steps).count (msg, ack)

/-- The goroutine `t` was started for a message whose payload decodes to the
identifier it closes over, as every goroutine started by `subscribe` is. -/
def decodable (env : Env) (t : Task) : Prop :=
  env.unmarshal t.msg.Data = .ok t.id

/-- The messages the iterator delivers before its first pull error. -/
def pulled : List (Except Err Msg) → List Msg
  | [] => []
  | .error _ :: _ => []
  | .ok msg :: rest => msg :: pulled rest

/-- The cache reads made in a run of steps. -/
def cacheReads : List Event → List (Option Item)
  | [] => []
  | .MemcacheGet _ got :: es => got :: cacheReads es
  | _ :: es => cacheReads es

/-- The compare-and-swap calls made in a run of steps, with their outcomes. -/
def cacheWrites : List Event → List (Item × Option Err)
  | [] => []
  | .MemcacheCAS item err :: es => (item, err) :: cacheWrites es
  | _ :: es => cacheWrites es

/-- The store fetch of `update env id w` fails. -/
def fetchFails (env : Env) (id : Int) (w : World) : Prop :=
  ∃ e, (GetBook env id w).1 = .error e

/-- The store fetch of `update env id w` succeeds and the metadata lookup that
follows fails. -/
def lookupFails (env : Env) (id : Int) (w : World) : Prop :=
  ∃ book e, (GetBook env id w).1 = .ok book ∧
    (VolumesList env book.Title (GetBook env id w).2).1 = .error e

/-- The lookup of `update env id w` returns at least one candidate and the store
update that follows fails. -/
def storeUpdateFails (env : Env) (id : Int) (w : World) : Prop :=
  ∃ book v vs e, (GetBook env id w).1 = .ok book ∧
    (VolumesList env book.Title (GetBook env id w).2).1 = .ok (v :: vs) ∧
    (UpdateBook env (enrich id book v.VolumeInfo)
      (VolumesList env book.Title (GetBook env id w).2).2).1 = some e

/-- The store update of `update env id w` succeeds and the index update that
follows fails. -/
def indexFails (env : Env) (id : Int) (w : World) : Prop :=
  ∃ book v vs e, (GetBook env id w).1 = .ok book ∧
    (VolumesList env book.Title (GetBook env id w).2).1 = .ok (v :: vs) ∧
    (UpdateBook env (enrich id book v.VolumeInfo)
      (VolumesList env book.Title (GetBook env id w).2).2).1 = none ∧
    (IndexBook env (enrich id book v.VolumeInfo)
      (UpdateBook env (enrich id book v.VolumeInfo)
        (VolumesList env book.Title (GetBook env id w).2).2).2).1 = some e

/-- The value of a run of decimal digits read after the value `acc`, if the
characters are all digits. -/
def readDigits : List Char → Nat → Option Nat
  | [], acc => some acc
  | c :: cs, acc =>
    if c.isDigit then readDigits cs (10 * acc + (c.toNat - 48)) else none

/-- The value of the digits of a JSON number that is an integer literal: a
single `0`, or digits that do not start with `0`. -/
def readNatural : List Char → Option Nat
  | [] => none
  | ['0'] => some 0
  | '0' :: _ => none
  | cs => readDigits cs 0

/-- The white space JSON allows around a value. -/
def isJSONSpace (c : Char) : Bool :=
  c = ' ' || c = '\t' || c = '\r' || c = '\n'

/-- Go `json.Unmarshal(data, &id)` for `var id int64`, which is 0 before the
call: white space around the value is skipped, `null` leaves `id` as it is, an
integer literal within the range of `int64` is stored, and every other input is
an error. -/
def jsonUnmarshalInt64 (data : String) : Except Err Int :=
  match ((data.data.dropWhile isJSONSpace).reverse.dropWhile isJSONSpace).reverse with
  | ['n', 'u', 'l', 'l'] => .ok 0
  | '-' :: cs =>
    match readNatural cs with
    | some n =>
      if n ≤ 2 ^ 63 then .ok (-(n : Int))
      else .error "json: cannot unmarshal number into Go value of type int64"
    | none => .error "json: cannot unmarshal into Go value of type int64"
  | cs =>
    match readNatural cs with
    | some n =>
      if n < 2 ^ 63 then .ok (n : Int)
      else .error "json: cannot unmarshal number into Go value of type int64"
    | none => .error "json: cannot unmarshal into Go value of type int64"

/-- Collaborators that never fail, with the metadata lookup a function of the
title and no other client writing to the cache. -/
def reliableEnv (lookup : String → List Volume) : Env where
  unmarshal := jsonUnmarshalInt64
  getBookErr := fun _ _ => none
  volumesList := fun _ title => .ok (lookup title)
  updateBookErr := fun _ _ => none
  searchOpenErr := fun _ _ => none
  indexPutErr := fun _ _ _ => none
  listBooks := fun _ => .ok []
  BooksKey := "books"
  concurrentWrites := fun w => w.cache
  memcacheGetErr := fun _ _ => none
  memcacheCASErr := fun _ _ => none

/-- A candidate with the given title and thumbnail and no other metadata. -/
def candidate (title : String) (thumbnail : Option String) : Volume :=
  ⟨⟨title, [], "", "", thumbnail.map ImageLinks.mk⟩⟩

/-- A record with the given identifier and title and no other field set. -/
def blankBook (id : Int) (title : String) : Book :=
  ⟨id, title, "", "", "", ""⟩

/-- A state whose store holds exactly the given record under identifier `1`. -/
def worldWith (book : Book) : World where
  books := fun id => if id = 1 then some book else none
  docs := fun _ => none
  cache := fun _ => none
  count := 0
  trace := []


/-- A lookup whose answer for a title carries another title: asked for `a` it
offers `b`, asked for `b` it offers `c`. -/
def chainLookup (title : String) : List Volume :=
  if title = "a" then [candidate "b" none]
  else if title = "b" then [candidate "c" none]
  else []

/-- A lookup that always offers one candidate titled `t` with the given
thumbnail. -/
def thumbLookup (thumbnail : String) (_title : String) : List Volume :=
  [candidate "t" (some thumbnail)]

/-- Collaborators that never fail, with the record list `books` in the store
and another client that rewrites the cache entry, under a newer version token,
between the first read and the first compare-and-swap of a cycle. -/
def racingEnv (books : List Book) : Env :=
  { reliableEnv (fun _ => []) with
    listBooks := fun _ => .ok books
    concurrentWrites := fun w =>
      if (cacheReads w.trace).length = 1 ∧ (cacheWrites w.trace).length = 0 then
        Function.update w.cache "books" (some ⟨[], 8⟩)
      else w.cache }

/-- A state whose cache holds an empty record list under the key `books`, with
version token `7`. -/
def cachedWorld : World where
  books := fun _ => none
  docs := fun _ => none
  cache := fun key => if key = "books" then some ⟨[], 7⟩ else none
  count := 0
  trace := []

/-- A record with a curated description and image reference. -/
def curatedBook : Book :=
  ⟨1, "a", "", "", "https://curated/cover.jpg", "curated text"⟩

/-- Collaborators that never fail except the search index, whose `Put` always
fails. -/
def brokenIndexEnv (lookup : String → List Volume) : Env :=
  { reliableEnv lookup with indexPutErr := fun _ _ _ => some "search: unavailable" }

/-! # Theorems -/

/-! ## Lemmas on the collaborator operations -/

theorem replaceScan_zero (old new : List Char) (s : List Char) :
    replaceScan old new 0 0 s = s := by
  induction s with
  | nil => simp [replaceScan]
  | cons c cs ih => simp [replaceScan, ih]

theorem replaceScan_noMatch (old new : List Char) (n : Nat) (s : List Char)
    (h : ∀ t, t ∈ s.tails → old.isPrefixOf t = false) :
    replaceScan old new n 0 s = s := by
  induction s with
  | nil => simp [replaceScan]
  | cons c cs ih =>
    cases n with
    | zero => exact replaceScan_zero old new _
    | succ n =>
      have h1 : old.isPrefixOf (c :: cs) = false := h _ (by simp)
      have h2 : ∀ t, t ∈ cs.tails → old.isPrefixOf t = false := fun t ht => h t (by simp [ht])
      simp [replaceScan, h1, ih h2]

theorem stringsReplace_scheme (rest : String) :
    stringsReplace ("http://" ++ rest) "http://" "https://" 1 = "https://" ++ rest := by
  have h : ("http://" ++ rest).data =
      'h' :: 't' :: 't' :: 'p' :: ':' :: '/' :: '/' :: rest.data := by
    simp [String.data_append]
  unfold stringsReplace
  simp [h, replaceScan, List.isPrefixOf, replaceScan_zero]
  apply String.ext
  simp

theorem stringsReplace_absent (s : String) (h : ¬ "http://".data <:+: s.data) :
    stringsReplace s "http://" "https://" 1 = s := by
  have hno : ∀ t, t ∈ s.data.tails → "http://".data.isPrefixOf t = false := by
    intro t ht
    by_contra hp
    simp only [Bool.not_eq_false] at hp
    apply h
    rw [List.infix_iff_prefix_suffix]
    exact ⟨t, List.isPrefixOf_iff_prefix.mp hp, (List.mem_tails _ _).mp ht⟩
  unfold stringsReplace
  have h1 : ¬ (("http://" : String) = "https://" ∨ (1 : Nat) = 0) := by decide
  have h2 : ¬ ("http://" : String).data = [] := by decide
  rw [if_neg h1, if_neg h2, replaceScan_noMatch _ _ _ _ hno]

theorem since_append (w w2 : World) (l : List Event) (h : w2.trace = w.trace ++ l) :
    w2.since w = l := by
  simp [World.since, h]

theorem GetBook_world (env : Env) (id : Int) (w : World) :
    (GetBook env id w).2 = w.emit (.GetBook id) := by
  unfold GetBook
  split
  · rfl
  · split <;> rfl

theorem GetBook_ok (env : Env) (id : Int) (w : World) (book : Book)
    (h : (GetBook env id w).1 = .ok book) : w.books id = some book := by
  unfold GetBook at h
  split at h
  · simp at h
  · split at h
    · simp at h
    · rename_i hb
      simp only [Except.ok.injEq] at h
      rw [hb, h]

theorem VolumesList_world (env : Env) (t : String) (w : World) :
    (VolumesList env t w).2 = w.emit (.VolumesList t) := rfl

theorem UpdateBook_error (env : Env) (b : Book) (w : World) (e : Err)
    (h : (UpdateBook env b w).1 = some e) :
    (UpdateBook env b w).2 = w.emit (.UpdateBook b) := by
  unfold UpdateBook at h ⊢
  split
  · rfl
  · rename_i h2
    simp [h2] at h

theorem UpdateBook_ok (env : Env) (b : Book) (w : World)
    (h : (UpdateBook env b w).1 = none) :
    (UpdateBook env b w).2 =
      { w.emit (.UpdateBook b) with books := Function.update w.books b.ID (some b) } := by
  unfold UpdateBook at h ⊢
  split
  · rename_i h2
    simp [h2] at h
  · rfl

theorem IndexBook_frame (env : Env) (b : Book) (w : World) :
    (IndexBook env b w).2.books = w.books ∧ (IndexBook env b w).2.count = w.count ∧
      (IndexBook env b w).2.cache = w.cache ∧
      (IndexBook env b w).2.trace = w.trace ++ [.IndexBook b] := by
  unfold IndexBook
  split
  · simp [World.emit]
  · split <;> simp [World.emit]

theorem enrich_ID (id : Int) (b : Book) (info : VolumeInfo) : (enrich id b info).ID = id := by
  unfold enrich
  simp only
  split <;> split <;> (try split) <;> rfl

theorem enrich_Description (id : Int) (b : Book) (info : VolumeInfo) (h : b.Description ≠ "") :
    (enrich id b info).Description = b.Description := by
  unfold enrich
  simp only [h, if_false]
  split
  · split <;> rfl
  · rfl

theorem enrich_ImageURL (id : Int) (b : Book) (info : VolumeInfo) (h : b.ImageURL ≠ "") :
    (enrich id b info).ImageURL = b.ImageURL := by
  unfold enrich
  simp only
  split <;> split <;> simp_all

theorem enrich_thumbnail (id : Int) (b : Book) (info : VolumeInfo) (links : ImageLinks)
    (h : b.ImageURL = "") (hl : info.ImageLinks = some links) :
    (enrich id b info).ImageURL = stringsReplace links.Thumbnail "http://" "https://" 1 := by
  unfold enrich
  simp only [hl]
  split <;> simp_all

theorem enrich_twice (id : Int) (b : Book) (info : VolumeInfo) :
    enrich id (enrich id b info) info = enrich id b info := by
  unfold enrich
  simp only
  cases info.ImageLinks with
  | none => simp only; split <;> simp_all
  | some links =>
    simp only
    by_cases hd : b.Description = "" <;> by_cases hi : b.ImageURL = "" <;> simp [hd, hi]

/-- The five ways a run of `update` can go, each with the result and the state
it leaves. -/
theorem update_cases (env : Env) (id : Int) (w : World) :
    (∃ e, (GetBook env id w).1 = .error e ∧
        update env id w = (some e, w.emit (.GetBook id))) ∨
    (∃ book e, (GetBook env id w).1 = .ok book ∧
        (VolumesList env book.Title (GetBook env id w).2).1 = .error e ∧
        update env id w = (some e, (w.emit (.GetBook id)).emit (.VolumesList book.Title))) ∨
    (∃ book, (GetBook env id w).1 = .ok book ∧
        (VolumesList env book.Title (GetBook env id w).2).1 = .ok [] ∧
        update env id w = (none, (w.emit (.GetBook id)).emit (.VolumesList book.Title))) ∨
    (∃ book v vs e, (GetBook env id w).1 = .ok book ∧
        (VolumesList env book.Title (GetBook env id w).2).1 = .ok (v :: vs) ∧
        (UpdateBook env (enrich id book v.VolumeInfo)
          (VolumesList env book.Title (GetBook env id w).2).2).1 = some e ∧
        update env id w = (some e, ((w.emit (.GetBook id)).emit
          (.VolumesList book.Title)).emit (.UpdateBook (enrich id book v.VolumeInfo)))) ∨
    (∃ book v vs tail, (GetBook env id w).1 = .ok book ∧
        (VolumesList env book.Title (GetBook env id w).2).1 = .ok (v :: vs) ∧
        (UpdateBook env (enrich id book v.VolumeInfo)
          (VolumesList env book.Title (GetBook env id w).2).2).1 = none ∧
        (update env id w).1 = none ∧
        (update env id w).2.books =
          Function.update w.books id (some (enrich id book v.VolumeInfo)) ∧
        (update env id w).2.count = w.count ∧
        (update env id w).2.cache = w.cache ∧
        (tail = [] ∨ ∃ e, tail = [.Printf "search: failed to update index for book [%v]: %v"
          [toString id, e]] ∧ indexFails env id w) ∧
        (update env id w).2.trace = w.trace ++ (.GetBook id :: .VolumesList book.Title ::
          .UpdateBook (enrich id book v.VolumeInfo) ::
          .IndexBook (enrich id book v.VolumeInfo) :: tail)) := by
  unfold indexFails
  unfold update
  have hgw := GetBook_world env id w
  rcases hg : GetBook env id w with ⟨rg, w1⟩
  rw [hg] at hgw
  simp only at hgw
  subst hgw
  cases rg with
  | error e => exact Or.inl ⟨e, rfl, rfl⟩
  | ok book =>
    right
    simp only
    have hvw := VolumesList_world env book.Title (w.emit (.GetBook id))
    rcases hv : VolumesList env book.Title (w.emit (.GetBook id)) with ⟨rv, w2⟩
    rw [hv] at hvw
    simp only at hvw
    subst hvw
    cases rv with
    | error e => exact Or.inl ⟨book, e, rfl, by rw [hv], rfl⟩
    | ok vols =>
      right
      cases vols with
      | nil => exact Or.inl ⟨book, rfl, by rw [hv], rfl⟩
      | cons v vs =>
        right
        simp only
        rcases hu : UpdateBook env (enrich id book v.VolumeInfo)
          ((w.emit (.GetBook id)).emit (.VolumesList book.Title)) with ⟨ru, w3⟩
        cases ru with
        | some e =>
          have := UpdateBook_error env _ _ e (by rw [hu])
          rw [hu] at this
          simp only at this
          subst this
          exact Or.inl ⟨book, v, vs, e, rfl, by rw [hv], by rw [hv, hu], rfl⟩
        | none =>
          right
          have h3 := UpdateBook_ok env _ _ (by rw [hu])
          rw [hu] at h3
          simp only at h3
          subst h3
          simp only
          have hi := IndexBook_frame env (enrich id book v.VolumeInfo)
            { ((w.emit (.GetBook id)).emit (.VolumesList book.Title)).emit
                (.UpdateBook (enrich id book v.VolumeInfo)) with
              books := Function.update ((w.emit (.GetBook id)).emit (.VolumesList book.Title)).books
                (enrich id book v.VolumeInfo).ID (some (enrich id book v.VolumeInfo)) }
          rcases hx : IndexBook env (enrich id book v.VolumeInfo)
            { ((w.emit (.GetBook id)).emit (.VolumesList book.Title)).emit
                (.UpdateBook (enrich id book v.VolumeInfo)) with
              books := Function.update ((w.emit (.GetBook id)).emit (.VolumesList book.Title)).books
                (enrich id book v.VolumeInfo).ID (some (enrich id book v.VolumeInfo)) } with ⟨ri, w4⟩
          rw [hx] at hi
          simp only [enrich_ID, World.emit] at hi
          obtain ⟨hb, hc, hca, ht⟩ := hi
          cases ri with
          | some e =>
            refine ⟨book, v, vs, [.Printf "search: failed to update index for book [%v]: %v"
              [toString id, e]], rfl, by rw [hv], by rw [hv, hu], rfl, ?_, ?_, ?_, ?_, ?_⟩
            · simp [World.emit, hb]
            · simp [World.emit, hc]
            · simp [World.emit, hca]
            · exact Or.inr ⟨e, rfl, book, v, vs, e, rfl, by rw [hv], by rw [hv, hu],
                by rw [hv, hu, hx]⟩
            · simp [World.emit, ht, enrich_ID]
          | none =>
            refine ⟨book, v, vs, [], rfl, by rw [hv], by rw [hv, hu], rfl, ?_, ?_, ?_,
              Or.inl rfl, ?_⟩
            · simp [hb]
            · simp [hc]
            · simp [hca]
            · simp [ht]

theorem enrich_Title (id : Int) (b : Book) (info : VolumeInfo) :
    (enrich id b info).Title = info.Title := by
  unfold enrich
  simp only
  split <;> split <;> (try split) <;> rfl

/-! ## The claims on `update` -/

/-- C3: when the fetch succeeds and the lookup succeeds with no candidate,
`update` returns success, hands nothing to the record store's update operation
or to the index, and leaves the store and the index as they were: its only
steps are the fetch and the lookup. -/
theorem update_zero_candidates (env : Env) (id : Int) (w : World) (book : Book)
    (hfetch : (GetBook env id w).1 = .ok book)
    (hlookup : (VolumesList env book.Title (GetBook env id w).2).1 = .ok []) :
    (update env id w).1 = none ∧
    persisted ((update env id w).2.since w) = [] ∧
    indexed ((update env id w).2.since w) = [] ∧
    (update env id w).2.since w = [.GetBook id, .VolumesList book.Title] ∧
    (update env id w).2.books = w.books ∧
    (update env id w).2.docs = w.docs := by
  rcases update_cases env id w with ⟨e, hg, _⟩ | ⟨b, e, hg, hl, _⟩ | ⟨b, hg, _, hu⟩ |
      ⟨b, v, vs, e, hg, hl, _⟩ | ⟨b, v, vs, tail, hg, hl, _⟩
  · rw [hfetch] at hg; cases hg
  · rw [hfetch] at hg; cases hg; rw [hlookup] at hl; cases hl
  · rw [hfetch] at hg; cases hg
    rw [hu]
    simp [World.since, World.emit, persisted, indexed]
  · rw [hfetch] at hg; cases hg; rw [hlookup] at hl; cases hl
  · rw [hfetch] at hg; cases hg; rw [hlookup] at hl; cases hl

/-- C6: `update` returns an error exactly when the store fetch fails, or the
lookup fails, or the lookup returns a candidate and the store update fails; a
failing index update leaves the result a success; and when `update` returns an
error the record store is as it was before the call. -/
theorem update_error_iff (env : Env) (id : Int) (w : World) :
    ((update env id w).1 ≠ none ↔
      fetchFails env id w ∨ lookupFails env id w ∨ storeUpdateFails env id w) ∧
    (indexFails env id w → (update env id w).1 = none) ∧
    ((update env id w).1 ≠ none → (update env id w).2.books = w.books) := by
  rcases update_cases env id w with ⟨e, hg, hu⟩ | ⟨b, e, hg, hl, hu⟩ | ⟨b, hg, hl, hu⟩ |
      ⟨b, v, vs, e, hg, hl, hs, hu⟩ | ⟨b, v, vs, tail, hg, hl, hs, hr, hb, _⟩
  · simp [fetchFails, lookupFails, storeUpdateFails, indexFails, hg, hu, World.emit]
  · simp [fetchFails, lookupFails, storeUpdateFails, indexFails, hg, hl, hu, World.emit]
  · simp [fetchFails, lookupFails, storeUpdateFails, indexFails, hg, hl, hu, World.emit]
  · simp [fetchFails, lookupFails, storeUpdateFails, indexFails, hg, hl, hs, hu, World.emit]
  · simp [fetchFails, lookupFails, storeUpdateFails, hg, hl, hs, hr]

/-- C2: every record `update` hands to the record store keeps the description
of the stored record when that description is non-empty, and keeps its image
reference when that is non-empty; on success this record is the one stored
under the identifier. -/
theorem update_keeps_curated (env : Env) (id : Int) (w : World) (book b : Book)
    (hstored : w.books id = some book)
    (hb : b ∈ persisted ((update env id w).2.since w)) :
    (book.Description ≠ "" → b.Description = book.Description) ∧
    (book.ImageURL ≠ "" → b.ImageURL = book.ImageURL) ∧
    ((update env id w).1 = none → (update env id w).2.books id = some b) := by
  rcases update_cases env id w with ⟨e, hg, hu⟩ | ⟨b2, e, hg, hl, hu⟩ | ⟨b2, hg, hl, hu⟩ |
      ⟨b2, v, vs, e, hg, hl, hs, hu⟩ | ⟨b2, v, vs, tail, hg, hl, hs, hr, hbk, _, _, htail, ht⟩
  · rw [hu] at hb; simp [World.since, World.emit, persisted] at hb
  · rw [hu] at hb; simp [World.since, World.emit, persisted] at hb
  · rw [hu] at hb; simp [World.since, World.emit, persisted] at hb
  · have h2 := GetBook_ok env id w b2 hg
    rw [hstored] at h2; cases h2
    rw [hu] at hb ⊢
    simp [World.since, World.emit, persisted] at hb
    subst hb
    exact ⟨enrich_Description id book _, enrich_ImageURL id book _, by simp⟩
  · have h2 := GetBook_ok env id w b2 hg
    rw [hstored] at h2; cases h2
    rw [since_append w _ _ ht] at hb
    have hb2 : b = enrich id book v.VolumeInfo := by
      rcases htail with h | ⟨e, h, _⟩ <;> subst h <;> simpa [persisted] using hb
    subst hb2
    exact ⟨enrich_Description id book _, enrich_ImageURL id book _, by simp [hbk]⟩

/-- C4: when the record's image reference is empty and the first candidate's
thumbnail is `http://` followed by `rest`, the one record `update` hands to the
record store (the record stored on success) has the image reference
`https://` followed by `rest`. -/
theorem update_thumbnail_scheme (env : Env) (id : Int) (w : World) (book : Book)
    (v : Volume) (vs : List Volume) (links : ImageLinks) (rest : String)
    (hfetch : (GetBook env id w).1 = .ok book)
    (hlookup : (VolumesList env book.Title (GetBook env id w).2).1 = .ok (v :: vs))
    (hlinks : v.VolumeInfo.ImageLinks = some links)
    (hthumb : links.Thumbnail = "http://" ++ rest)
    (hempty : book.ImageURL = "") :
    ∃ b, persisted ((update env id w).2.since w) = [b] ∧
      b.ImageURL = "https://" ++ rest ∧
      ((update env id w).1 = none → (update env id w).2.books id = some b) := by
  have hurl : (enrich id book v.VolumeInfo).ImageURL = "https://" ++ rest := by
    rw [enrich_thumbnail id book _ links hempty hlinks, hthumb, stringsReplace_scheme]
  rcases update_cases env id w with ⟨e, hg, hu⟩ | ⟨b2, e, hg, hl, hu⟩ | ⟨b2, hg, hl, hu⟩ |
      ⟨b2, v2, vs2, e, hg, hl, hs, hu⟩ | ⟨b2, v2, vs2, tail, hg, hl, hs, hr, hbk, _, _, htail, ht⟩
  · rw [hfetch] at hg; cases hg
  · rw [hfetch] at hg; cases hg; rw [hlookup] at hl; cases hl
  · rw [hfetch] at hg; cases hg; rw [hlookup] at hl; cases hl
  · rw [hfetch] at hg; cases hg; rw [hlookup] at hl; cases hl
    refine ⟨enrich id book v.VolumeInfo, ?_, hurl, ?_⟩
    · rw [hu]; simp [World.since, World.emit, persisted]
    · rw [hu]; simp
  · rw [hfetch] at hg; cases hg; rw [hlookup] at hl; cases hl
    refine ⟨enrich id book v.VolumeInfo, ?_, hurl, ?_⟩
    · rw [since_append w _ _ ht]
      rcases htail with h | ⟨e, h, _⟩ <;> subst h <;> simp [persisted]
    · intro _; simp [hbk]

/-- C5, as amended: when the record's image reference is empty and `http://`
occurs nowhere in the first candidate's thumbnail, the one record `update`
hands to the record store (the record stored on success) has exactly that
thumbnail as its image reference. -/
theorem update_thumbnail_unchanged (env : Env) (id : Int) (w : World) (book : Book)
    (v : Volume) (vs : List Volume) (links : ImageLinks)
    (hfetch : (GetBook env id w).1 = .ok book)
    (hlookup : (VolumesList env book.Title (GetBook env id w).2).1 = .ok (v :: vs))
    (hlinks : v.VolumeInfo.ImageLinks = some links)
    (habsent : ¬ "http://".data <:+: links.Thumbnail.data)
    (hempty : book.ImageURL = "") :
    ∃ b, persisted ((update env id w).2.since w) = [b] ∧
      b.ImageURL = links.Thumbnail ∧
      ((update env id w).1 = none → (update env id w).2.books id = some b) := by
  have hurl : (enrich id book v.VolumeInfo).ImageURL = links.Thumbnail := by
    rw [enrich_thumbnail id book _ links hempty hlinks, stringsReplace_absent _ habsent]
  rcases update_cases env id w with ⟨e, hg, hu⟩ | ⟨b2, e, hg, hl, hu⟩ | ⟨b2, hg, hl, hu⟩ |
      ⟨b2, v2, vs2, e, hg, hl, hs, hu⟩ | ⟨b2, v2, vs2, tail, hg, hl, hs, hr, hbk, _, _, htail, ht⟩
  · rw [hfetch] at hg; cases hg
  · rw [hfetch] at hg; cases hg; rw [hlookup] at hl; cases hl
  · rw [hfetch] at hg; cases hg; rw [hlookup] at hl; cases hl
  · rw [hfetch] at hg; cases hg; rw [hlookup] at hl; cases hl
    refine ⟨enrich id book v.VolumeInfo, ?_, hurl, ?_⟩
    · rw [hu]; simp [World.since, World.emit, persisted]
    · rw [hu]; simp
  · rw [hfetch] at hg; cases hg; rw [hlookup] at hl; cases hl
    refine ⟨enrich id book v.VolumeInfo, ?_, hurl, ?_⟩
    · rw [since_append w _ _ ht]
      rcases htail with h | ⟨e, h, _⟩ <;> subst h <;> simp [persisted]
    · intro _; simp [hbk]

theorem update_reliable (lookup : String → List Volume) (id : Int) (w : World) (book : Book)
    (hstored : w.books id = some book) :
    (lookup book.Title = [] ∧ (update (reliableEnv lookup) id w).2.books = w.books) ∨
    (∃ v vs, lookup book.Title = v :: vs ∧
      (update (reliableEnv lookup) id w).2.books =
        Function.update w.books id (some (enrich id book v.VolumeInfo))) := by
  rcases update_cases (reliableEnv lookup) id w with ⟨e, hg, hu⟩ | ⟨b2, e, hg, hl, hu⟩ |
      ⟨b2, hg, hl, hu⟩ | ⟨b2, v, vs, e, hg, hl, hs, hu⟩ |
      ⟨b2, v, vs, tail, hg, hl, hs, hr, hbk, _⟩
  · simp [GetBook, reliableEnv, hstored] at hg
  · simp [VolumesList, reliableEnv] at hl
  · have h2 := GetBook_ok _ id w b2 hg
    rw [hstored] at h2; cases h2
    left
    simp only [VolumesList, reliableEnv, Except.ok.injEq] at hl
    exact ⟨hl, by rw [hu]; rfl⟩
  · simp [UpdateBook, reliableEnv] at hs
  · have h2 := GetBook_ok _ id w b2 hg
    rw [hstored] at h2; cases h2
    right
    simp only [VolumesList, reliableEnv, Except.ok.injEq] at hl
    exact ⟨v, vs, hl, hbk⟩

/-- C1, as amended: with collaborators that never fail and a lookup that is a
function of the title, if the lookup for the title of the first candidate
offered for the record's title returns no candidate or the same first
candidate, running `update` twice in a row leaves the record store as running
it once does. -/
theorem update_twice_stable (lookup : String → List Volume) (id : Int) (w : World)
    (book : Book) (hstored : w.books id = some book)
    (hstable : ∀ v vs, lookup book.Title = v :: vs →
      lookup v.VolumeInfo.Title = [] ∨ (lookup v.VolumeInfo.Title).head? = some v) :
    (update (reliableEnv lookup) id (update (reliableEnv lookup) id w).2).2.books =
      (update (reliableEnv lookup) id w).2.books := by
  rcases update_reliable lookup id w book hstored with ⟨h0, h1⟩ | ⟨v, vs, h0, h1⟩
  · have hs2 : (update (reliableEnv lookup) id w).2.books id = some book := by
      rw [h1]; exact hstored
    rcases update_reliable lookup id _ book hs2 with ⟨_, h3⟩ | ⟨v, vs, h2, _⟩
    · exact h3
    · rw [h0] at h2; cases h2
  · have hs2 : (update (reliableEnv lookup) id w).2.books id =
        some (enrich id book v.VolumeInfo) := by
      rw [h1]; simp
    rcases update_reliable lookup id _ _ hs2 with ⟨_, h3⟩ | ⟨v2, vs2, h2, h3⟩
    · exact h3
    · rw [enrich_Title] at h2
      rcases hstable v vs h0 with h | h
      · rw [h] at h2; cases h2
      · rw [h2] at h
        simp only [List.head?_cons, Option.some.injEq] at h
        subst h
        rw [h3, enrich_twice, h1]
        simp

/-- C1 refuted: with the record titled `a` stored under identifier `1`,
collaborators that never fail and the deterministic lookup `chainLookup`, one
run of `update` stores the title `b` and a second run stores the title `c`. -/
theorem update_twice_differs :
    (worldWith (blankBook 1 "a")).books 1 = some (blankBook 1 "a") ∧
    ((update (reliableEnv chainLookup) 1 (worldWith (blankBook 1 "a"))).2.books 1).map
      (fun b => b.Title) = some "b" ∧
    ((update (reliableEnv chainLookup) 1
      (update (reliableEnv chainLookup) 1 (worldWith (blankBook 1 "a"))).2).2.books 1).map
      (fun b => b.Title) = some "c" ∧
    (update (reliableEnv chainLookup) 1
      (update (reliableEnv chainLookup) 1 (worldWith (blankBook 1 "a"))).2).2.books ≠
    (update (reliableEnv chainLookup) 1 (worldWith (blankBook 1 "a"))).2.books := by
  refine ⟨by decide, by decide, by decide, ?_⟩
  intro h
  exact absurd (congrFun h 1) (by decide)

/-- C1, as amended, at a lookup that answers every title with the same
candidate. -/
theorem update_twice_stable_witness :
    (update (reliableEnv (thumbLookup "http://x")) 1
      (update (reliableEnv (thumbLookup "http://x")) 1 (worldWith (blankBook 1 "a"))).2).2.books =
    (update (reliableEnv (thumbLookup "http://x")) 1 (worldWith (blankBook 1 "a"))).2.books :=
  update_twice_stable (thumbLookup "http://x") 1 (worldWith (blankBook 1 "a"))
    (blankBook 1 "a") (by decide) (by intro v vs h; right; simp [thumbLookup] at h; simp [thumbLookup, h.1])

/-! ## The claims on `subscribe` -/

/-- What every run of `update` leaves alone: it only appends steps, none of
them a decision on a message or an increment of the counter, and it keeps the
counter. -/
theorem update_frame (env : Env) (id : Int) (w : World) :
    ∃ steps, (update env id w).2.trace = w.trace ++ steps ∧ decisions steps = [] ∧
      Event.CountIncr ∉ steps ∧ (update env id w).2.count = w.count ∧
      ((update env id w).1 = none → persisted steps = [] →
        (update env id w).2.books = w.books) := by
  rcases update_cases env id w with ⟨e, hg, hu⟩ | ⟨b, e, hg, hl, hu⟩ | ⟨b, hg, hl, hu⟩ |
      ⟨b, v, vs, e, hg, hl, hs, hu⟩ | ⟨b, v, vs, tail, hg, hl, hs, hr, hb, hc, _, htail, ht⟩
  · exact ⟨[.GetBook id], by rw [hu]; rfl, rfl, by simp, by rw [hu]; rfl, by rw [hu]; simp⟩
  · exact ⟨[.GetBook id, .VolumesList b.Title], by rw [hu]; simp [World.emit], rfl, by simp,
      by rw [hu]; rfl, by rw [hu]; simp⟩
  · exact ⟨[.GetBook id, .VolumesList b.Title], by rw [hu]; simp [World.emit], rfl, by simp,
      by rw [hu]; rfl, by rw [hu]; intro _ _; rfl⟩
  · exact ⟨[.GetBook id, .VolumesList b.Title, .UpdateBook (enrich id b v.VolumeInfo)],
      by rw [hu]; simp [World.emit], rfl, by simp, by rw [hu]; rfl, by rw [hu]; simp⟩
  · refine ⟨_, ht, ?_, ?_, hc, ?_⟩
    · rcases htail with h | ⟨e, h, _⟩ <;> subst h <;> rfl
    · rcases htail with h | ⟨e, h, _⟩ <;> subst h <;> simp
    · intro _ hp
      simp [persisted] at hp

theorem decisions_append (a b : List Event) :
    decisions (a ++ b) = decisions a ++ decisions b := by
  induction a with
  | nil => rfl
  | cons e es ih => cases e <;> simp [decisions, ih]

theorem timesDone_append (msg : Msg) (ack : Bool) (a b : List Event) :
    timesDone msg ack (a ++ b) = timesDone msg ack a + timesDone msg ack b := by
  simp [timesDone, decisions_append, List.count_append]

/-- The goroutine body appends steps that hold exactly one decision, on its own
message, after the steps of `update`. -/
theorem process_steps (env : Env) (msg : Msg) (id : Int) (w0 : World) :
    ∃ tail, (process env msg id w0).trace = (update env id w0).2.trace ++ tail ∧
      decisions tail = [(msg, (update env id w0).1.isNone)] ∧
      decisions ((update env id w0).2.since w0) = [] ∧
      decisions ((process env msg id w0).since w0) = [(msg, (update env id w0).1.isNone)] := by
  obtain ⟨steps, ht, hd, _, _, _⟩ := update_frame env id w0
  have hsteps : decisions ((update env id w0).2.since w0) = [] := by
    rw [since_append w0 _ _ ht]; exact hd
  rcases hu : update env id w0 with ⟨r, w1⟩
  rw [hu] at ht hsteps
  simp only at ht
  cases r with
  | some err =>
    have htr : (process env msg id w0).trace = w1.trace ++
        [.Printf "[ID %d] could not update: %v" [toString id, err], .Done msg false] := by
      simp [process, hu, World.emit]
    refine ⟨_, htr, rfl, hsteps, ?_⟩
    rw [since_append w0 _ (steps ++ [.Printf "[ID %d] could not update: %v"
      [toString id, err], .Done msg false]) (by rw [htr, ht]; simp)]
    rw [decisions_append, hd]; rfl
  | none =>
    have htr : (process env msg id w0).trace = w1.trace ++
        [.CountIncr, .Done msg true, .Printf "[ID %d] ACK" [toString id]] := by
      simp [process, hu, World.emit]
    refine ⟨_, htr, rfl, hsteps, ?_⟩
    rw [since_append w0 _ (steps ++ [.CountIncr, .Done msg true,
      .Printf "[ID %d] ACK" [toString id]]) (by rw [htr, ht]; simp)]
    rw [decisions_append, hd]; rfl

theorem pick_perm : ∀ (i : Nat) (l : List Task) (t : Task) (others : List Task),
    pick i l = some (t, others) → l.Perm (t :: others) := by
  intro i l
  induction l generalizing i with
  | nil => intro t others h; simp [pick] at h
  | cons x xs ih =>
    intro t others h
    cases i with
    | zero =>
      simp only [pick, Option.some.injEq, Prod.mk.injEq] at h
      obtain ⟨h1, h2⟩ := h
      subst h1 h2
      exact List.Perm.refl _
    | succ i =>
      simp only [pick] at h
      split at h
      · cases h
      · rename_i y ys hp
        simp only [Option.some.injEq, Prod.mk.injEq] at h
        obtain ⟨h1, h2⟩ := h
        subst h1 h2
        exact ((ih i y ys hp).cons x).trans (List.Perm.swap y x ys)

/-- One goroutine of a decodable message, run from any state, decides its own
message once and no other message. -/
theorem run_account (env : Env) (t : Task) (w : World) (ht : decodable env t) :
    ∃ steps, (t.run env w).trace = w.trace ++ steps ∧
      (∀ m, timesDone m true steps + timesDone m false steps = if t.msg = m then 1 else 0) ∧
      (∀ m, (∀ id, env.unmarshal m.Data ≠ .ok id) → timesDone m false steps = 0) := by
  obtain ⟨steps, h1, _, _, _⟩ := update_frame env t.id w
  obtain ⟨tail, h2, _, _, h5⟩ := process_steps env t.msg t.id w
  have htr : (t.run env w).trace = w.trace ++ (steps ++ tail) := by
    simp only [Task.run]; rw [h2, h1, List.append_assoc]
  have hd : decisions (steps ++ tail) = [(t.msg, (update env t.id w).1.isNone)] := by
    rw [← since_append w _ _ htr]; exact h5
  refine ⟨steps ++ tail, htr, ?_, ?_⟩
  · intro m
    simp only [timesDone, hd, List.count_cons, List.count_nil, beq_iff_eq, Prod.mk.injEq]
    by_cases hm : t.msg = m <;> cases (update env t.id w).1.isNone <;> simp [hm]
  · intro m hm
    simp only [timesDone, hd, List.count_cons, List.count_nil, beq_iff_eq, Prod.mk.injEq]
    have : t.msg ≠ m := fun h => hm t.id (h ▸ ht)
    simp [this]

theorem count_msg_zero (env : Env) (l : List Task) (m : Msg)
    (hl : ∀ t ∈ l, decodable env t) (hm : ∀ id, env.unmarshal m.Data ≠ .ok id) :
    (l.map Task.msg).count m = 0 := by
  rw [List.count_eq_zero]
  intro h
  obtain ⟨t, ht, rfl⟩ := List.mem_map.mp h
  exact hm t.id (hl t ht)

/-- The scheduler step keeps the books: every pending goroutine is afterwards
either still pending or has decided its message once. -/
theorem runPicked_account (env : Env) : ∀ (picks : List Nat) (w : World) (pending : List Task),
    (∀ t ∈ pending, decodable env t) →
    ∃ steps, (runPicked env picks w pending).1.trace = w.trace ++ steps ∧
      (∀ t ∈ (runPicked env picks w pending).2, decodable env t) ∧
      (∀ m, timesDone m true steps + timesDone m false steps +
        ((runPicked env picks w pending).2.map Task.msg).count m =
          (pending.map Task.msg).count m) ∧
      (∀ m, (∀ id, env.unmarshal m.Data ≠ .ok id) → timesDone m false steps = 0) := by
  intro picks
  induction picks with
  | nil =>
    intro w pending hp
    exact ⟨[], by simp [runPicked], by simpa [runPicked] using hp,
      by simp [runPicked, timesDone, decisions], by simp [timesDone, decisions]⟩
  | cons i picks ih =>
    intro w pending hp
    unfold runPicked
    cases hpick : pick i pending with
    | none => exact ih w pending hp
    | some p =>
      obtain ⟨t, others⟩ := p
      simp only
      have hperm := pick_perm i pending t others hpick
      have ht : decodable env t := hp t (hperm.mem_iff.mpr (List.mem_cons_self _ _))
      have ho : ∀ x ∈ others, decodable env x :=
        fun x hx => hp x (hperm.mem_iff.mpr (List.mem_cons_of_mem _ hx))
      obtain ⟨s1, a1, a2, a3⟩ := run_account env t w ht
      obtain ⟨s2, b1, b2, b3, b4⟩ := ih (t.run env w) others ho
      refine ⟨s1 ++ s2, by rw [b1, a1, List.append_assoc], b2, ?_, ?_⟩
      · intro m
        have hc : (pending.map Task.msg).count m =
            ((t :: others).map Task.msg).count m := (hperm.map Task.msg).count_eq m
        rw [hc, timesDone_append, timesDone_append]
        have e1 := a2 m
        have e2 := b3 m
        simp only [List.map_cons, List.count_cons, beq_iff_eq]
        omega
      · intro m hm
        rw [timesDone_append, a3 m hm, b4 m hm]

/-- While the loop waits, every pending goroutine decides its message once. -/
theorem runAll_account (env : Env) : ∀ (pending : List Task) (w : World),
    (∀ t ∈ pending, decodable env t) →
    ∃ steps, (runAll env pending w).trace = w.trace ++ steps ∧
      (∀ m, timesDone m true steps + timesDone m false steps =
        (pending.map Task.msg).count m) ∧
      (∀ m, (∀ id, env.unmarshal m.Data ≠ .ok id) → timesDone m false steps = 0) := by
  intro pending
  induction pending with
  | nil =>
    intro w _
    exact ⟨[], by simp [runAll], by simp [timesDone, decisions], by simp [timesDone, decisions]⟩
  | cons t ts ih =>
    intro w hp
    obtain ⟨s1, a1, a2, a3⟩ := run_account env t w (hp t (List.mem_cons_self _ _))
    obtain ⟨s2, b1, b2, b3⟩ := ih (t.run env w) (fun x hx => hp x (List.mem_cons_of_mem _ hx))
    refine ⟨s1 ++ s2, by simp only [runAll]; rw [b1, a1, List.append_assoc], ?_, ?_⟩
    · intro m
      rw [timesDone_append, timesDone_append]
      have e1 := a2 m
      have e2 := b2 m
      simp only [List.map_cons, List.count_cons, beq_iff_eq]
      omega
    · intro m hm
      rw [timesDone_append, a3 m hm, b3 m hm]

/-- One iteration of the loop either acknowledges the message with `Done(true)`
or starts the goroutine for it. -/
theorem receive_account (env : Env) (msg : Msg) (w : World) :
    ∃ steps, (receive env msg w).1.trace = w.trace ++ steps ∧
      (∀ t ∈ (receive env msg w).2.toList, decodable env t) ∧
      (∀ m, timesDone m true steps + timesDone m false steps +
        ((receive env msg w).2.toList.map Task.msg).count m = if msg = m then 1 else 0) ∧
      (∀ m, timesDone m false steps = 0) := by
  unfold receive
  cases hdec : env.unmarshal msg.Data with
  | error e =>
    refine ⟨[.Printf "could not decode message data: %#v" [msg.Data], .Done msg true],
      by simp [World.emit], by simp, ?_, ?_⟩
    · intro m
      by_cases hm : msg = m <;> simp [timesDone, decisions, List.count_cons, hm]
    · intro m
      simp [timesDone, decisions, List.count_cons]
  | ok id =>
    refine ⟨[.Printf "[ID %d] Processing." [toString id]], by simp [World.emit],
      by simp [decodable, hdec], ?_, ?_⟩
    · intro m
      by_cases hm : msg = m <;> simp [timesDone, decisions, List.count_cons, hm]
    · intro m
      simp [timesDone, decisions]

/-- The books of the whole loop: every message delivered before a pull error
is decided once, or its goroutine is among those the fatal exit left pending;
`Done(false)` is never called on a message that does not decode; and without a
pull error nothing is left pending. -/
theorem subscribeLoop_account (env : Env) : ∀ (stream : List (Except Err Msg))
    (sched : List (List Nat)) (w : World) (pending : List Task),
    (∀ t ∈ pending, decodable env t) →
    ∃ steps, (subscribeLoop env stream sched w pending).2.1.trace = w.trace ++ steps ∧
      (∀ t ∈ (subscribeLoop env stream sched w pending).2.2, decodable env t) ∧
      (∀ m, timesDone m true steps + timesDone m false steps +
        ((subscribeLoop env stream sched w pending).2.2.map Task.msg).count m =
          (pulled stream).count m + (pending.map Task.msg).count m) ∧
      (∀ m, (∀ id, env.unmarshal m.Data ≠ .ok id) → timesDone m false steps = 0) ∧
      ((subscribeLoop env stream sched w pending).1 = .Waiting →
        (subscribeLoop env stream sched w pending).2.2 = []) := by
  intro stream
  induction stream with
  | nil =>
    intro sched w pending hp
    obtain ⟨steps, a1, a2, a3⟩ := runAll_account env pending w hp
    refine ⟨steps, by simpa [subscribeLoop] using a1, by simp [subscribeLoop], ?_, a3,
      by simp [subscribeLoop]⟩
    intro m
    simp [subscribeLoop, pulled, a2 m]
  | cons r rest ih =>
    intro sched w pending hp
    cases r with
    | error err =>
      refine ⟨[.Fatal ("could not pull: " ++ err)], by simp [subscribeLoop, World.emit],
        by simpa [subscribeLoop] using hp, ?_, by simp [timesDone, decisions],
        by simp [subscribeLoop]⟩
      intro m
      simp [subscribeLoop, pulled, timesDone, decisions]
    | ok msg =>
      obtain ⟨s1, a1, a2, a3, a4⟩ := receive_account env msg w
      rcases hr : receive env msg w with ⟨w1, started⟩
      rw [hr] at a1 a2 a3
      simp only at a1 a2 a3
      have hp1 : ∀ t ∈ pending ++ started.toList, decodable env t := by
        intro t ht
        rcases List.mem_append.mp ht with h | h
        · exact hp t h
        · exact a2 t h
      obtain ⟨s2, b1, b2, b3, b4⟩ :=
        runPicked_account env (sched.headD []) w1 (pending ++ started.toList) hp1
      rcases hq : runPicked env (sched.headD []) w1 (pending ++ started.toList) with ⟨w2, pending2⟩
      rw [hq] at b1 b2 b3
      simp only at b1 b2 b3
      obtain ⟨s3, c1, c2, c3, c4, c5⟩ := ih sched.tail w2 pending2 b2
      have hloop : subscribeLoop env (.ok msg :: rest) sched w pending =
          subscribeLoop env rest sched.tail w2 pending2 := by
        simp only [subscribeLoop, hr, hq]
      rw [hloop]
      refine ⟨s1 ++ s2 ++ s3, by rw [c1, b1, a1]; simp, c2, ?_, ?_, c5⟩
      · intro m
        have e1 := a3 m
        have e2 := b3 m
        have e3 := c3 m
        rw [timesDone_append, timesDone_append, timesDone_append, timesDone_append]
        simp only [List.map_append, List.count_append] at e2
        simp only [pulled, List.count_cons, beq_iff_eq]
        omega
      · intro m hm
        rw [timesDone_append, timesDone_append, a4 m, b4 m hm, c4 m hm]

theorem runPicked_nil (env : Env) : ∀ (picks : List Nat) (w : World),
    runPicked env picks w [] = (w, []) := by
  intro picks
  induction picks with
  | nil => intro w; rfl
  | cons i picks ih => intro w; simp [runPicked, pick, ih]

theorem runPicked_single (env : Env) (t : Task) : ∀ (picks : List Nat) (w : World),
    runAll env (runPicked env picks w [t]).2 (runPicked env picks w [t]).1 = t.run env w := by
  intro picks
  induction picks with
  | nil => intro w; rfl
  | cons i picks ih =>
    intro w
    cases i with
    | zero => simp [runPicked, pick, runPicked_nil, runAll]
    | succ i => simpa [runPicked, pick] using ih w

/-- C9: `subscribe` calls `Done(true)` on a message whose payload does not
decode once for each delivery of it before a pull error, and never calls
`Done(false)` on it; no goroutine is pending for it; a stream of that message
alone leaves exactly the log line and `Done(true)`.  In every iteration that
receives it no goroutine is started, so `update` is not invoked, the counter,
the store and the index are untouched, and the loop goes on with the rest of
the stream. -/
theorem poison_acknowledged (env : Env) (stream : List (Except Err Msg))
    (sched : List (List Nat)) (w : World) (msg : Msg) (e : Err)
    (hdec : env.unmarshal msg.Data = .error e) :
    timesDone msg true ((subscribe env (.ok stream) sched w).2.1.since w) =
      (pulled stream).count msg ∧
    timesDone msg false ((subscribe env (.ok stream) sched w).2.1.since w) = 0 ∧
    (∀ t ∈ (subscribe env (.ok stream) sched w).2.2, t.msg ≠ msg) ∧
    subscribe env (.ok [.ok msg]) sched w =
      (.Waiting, (w.emit (.Printf "could not decode message data: %#v" [msg.Data])).emit
        (.Done msg true), []) ∧
    ∀ w0 : World,
      (receive env msg w0).2 = none ∧
      (receive env msg w0).1.since w0 =
        [.Printf "could not decode message data: %#v" [msg.Data], .Done msg true] ∧
      (receive env msg w0).1.count = w0.count ∧
      (receive env msg w0).1.books = w0.books ∧
      (receive env msg w0).1.docs = w0.docs ∧
      ∀ (rest : List (Except Err Msg)) (sch : List (List Nat)) (pending : List Task),
        subscribeLoop env (.ok msg :: rest) sch w0 pending =
          subscribeLoop env rest sch.tail
            (runPicked env (sch.headD []) (receive env msg w0).1 pending).1
            (runPicked env (sch.headD []) (receive env msg w0).1 pending).2 := by
  have hm : ∀ id, env.unmarshal msg.Data ≠ .ok id := by
    intro id h; rw [hdec] at h; cases h
  have hr : ∀ w0, receive env msg w0 =
      ((w0.emit (.Printf "could not decode message data: %#v" [msg.Data])).emit
        (.Done msg true), none) := by
    intro w0
    unfold receive
    rw [hdec]
  obtain ⟨steps, a1, a2, a3, a4, _⟩ := subscribeLoop_account env stream sched w [] (by simp)
  have hsub : subscribe env (.ok stream) sched w = subscribeLoop env stream sched w [] := rfl
  have hz := count_msg_zero env _ msg a2 hm
  have hsum := a3 msg
  rw [hz, a4 msg hm] at hsum
  refine ⟨?_, ?_, ?_, ?_, ?_⟩
  · rw [hsub, since_append w _ _ a1]
    simpa using hsum
  · rw [hsub, since_append w _ _ a1]
    exact a4 msg hm
  · intro t ht h
    rw [hsub] at ht
    exact hm t.id (h ▸ a2 t ht)
  · simp [subscribe, subscribeLoop, hr, runPicked_nil, runAll]
  · intro w0
    refine ⟨by rw [hr], ?_, by rw [hr]; rfl, by rw [hr]; rfl, by rw [hr]; rfl, ?_⟩
    · rw [hr]; simp [World.since, World.emit]
    · intro rest sch pending
      simp [subscribeLoop, hr]

/-- C7, as amended: for a message whose payload decodes to `id`, the calls of
`Done` on it and the goroutines for it that a fatal pull error left pending add
up to its deliveries, so no delivery is decided twice; when the run ends
without a pull error nothing is pending and every delivery is decided exactly
once; a stream of that message alone ends with its goroutine run; and the
goroutine, from whatever state it starts in, issues exactly one decision, on
that message, after every step of `update`: `Done(true)` when `update` returned
nil and `Done(false)` when it returned an error. -/
theorem task_decides_once (env : Env) (stream : List (Except Err Msg))
    (sched : List (List Nat)) (w : World) (msg : Msg) (id : Int)
    (hdec : env.unmarshal msg.Data = .ok id) :
    timesDone msg true ((subscribe env (.ok stream) sched w).2.1.since w) +
      timesDone msg false ((subscribe env (.ok stream) sched w).2.1.since w) +
      ((subscribe env (.ok stream) sched w).2.2.map Task.msg).count msg =
        (pulled stream).count msg ∧
    ((subscribe env (.ok stream) sched w).1 = .Waiting →
      (subscribe env (.ok stream) sched w).2.2 = [] ∧
      timesDone msg true ((subscribe env (.ok stream) sched w).2.1.since w) +
        timesDone msg false ((subscribe env (.ok stream) sched w).2.1.since w) =
          (pulled stream).count msg) ∧
    (∀ t ∈ (subscribe env (.ok stream) sched w).2.2, t.msg = msg → t = ⟨msg, id⟩) ∧
    subscribe env (.ok [.ok msg]) sched w =
      (.Waiting, Task.run env ⟨msg, id⟩
        (w.emit (.Printf "[ID %d] Processing." [toString id])), []) ∧
    ∀ w0 : World,
      receive env msg w0 =
        (w0.emit (.Printf "[ID %d] Processing." [toString id]), some ⟨msg, id⟩) ∧
      decisions ((Task.run env ⟨msg, id⟩ w0).since w0) =
        [(msg, (update env id w0).1.isNone)] ∧
      decisions ((update env id w0).2.since w0) = [] ∧
      ∃ tail, (Task.run env ⟨msg, id⟩ w0).trace = (update env id w0).2.trace ++ tail ∧
        decisions tail = [(msg, (update env id w0).1.isNone)] := by
  have hr : ∀ w0, receive env msg w0 =
      (w0.emit (.Printf "[ID %d] Processing." [toString id]), some ⟨msg, id⟩) := by
    intro w0
    unfold receive
    rw [hdec]
  obtain ⟨steps, a1, a2, a3, _, a5⟩ := subscribeLoop_account env stream sched w [] (by simp)
  have hsub : subscribe env (.ok stream) sched w = subscribeLoop env stream sched w [] := rfl
  have hsum := a3 msg
  simp only [List.map_nil, List.count_nil, Nat.add_zero] at hsum
  refine ⟨?_, ?_, ?_, ?_, ?_⟩
  · rw [hsub, since_append w _ _ a1]
    exact hsum
  · intro hw
    rw [hsub] at hw ⊢
    have hnil := a5 hw
    refine ⟨hnil, ?_⟩
    rw [since_append w _ _ a1]
    rw [hnil] at hsum
    simpa using hsum
  · intro t ht h
    rw [hsub] at ht
    have hd := a2 t ht
    unfold decodable at hd
    rw [h, hdec] at hd
    cases t
    simp only [Except.ok.injEq] at hd
    simp_all
  · have h1 := runPicked_single env ⟨msg, id⟩ (sched.headD [])
      (w.emit (.Printf "[ID %d] Processing." [toString id]))
    simp only [subscribe, subscribeLoop, hr, List.nil_append, Option.toList_some]
    rcases hq : runPicked env (sched.headD [])
      (w.emit (.Printf "[ID %d] Processing." [toString id])) [⟨msg, id⟩] with ⟨w2, p2⟩
    rw [hq] at h1
    simp only at h1 ⊢
    simp only [subscribeLoop, h1]
  · intro w0
    obtain ⟨tail, h2, h3, h4, h5⟩ := process_steps env msg id w0
    exact ⟨hr w0, h5, h4, tail, h2, h3⟩

/-- C7 refuted: the payload `1` decodes to the identifier 1, the next result of
`it.Next()` is a pull error and the goroutine has not run by then: `subscribe`
ends in `log.Fatalf` with the goroutine still pending and no call of `Done` on
the message. -/
theorem task_killed_by_fatal :
    (reliableEnv (thumbLookup "http://x")).unmarshal (⟨0, "1"⟩ : Msg).Data = .ok 1 ∧
    (subscribe (reliableEnv (thumbLookup "http://x")) (.ok [.ok ⟨0, "1"⟩, .error "boom"]) []
      (worldWith (blankBook 1 "a"))).1 = .Fatal "boom" ∧
    (subscribe (reliableEnv (thumbLookup "http://x")) (.ok [.ok ⟨0, "1"⟩, .error "boom"]) []
      (worldWith (blankBook 1 "a"))).2.2 = [⟨⟨0, "1"⟩, 1⟩] ∧
    decisions ((subscribe (reliableEnv (thumbLookup "http://x"))
      (.ok [.ok ⟨0, "1"⟩, .error "boom"]) []
      (worldWith (blankBook 1 "a"))).2.1.since (worldWith (blankBook 1 "a"))) = [] := by
  refine ⟨rfl, by decide, by decide, by decide⟩

/-- C8, as amended: the goroutine of a message adds exactly 1 to the counter
whenever `update` returns nil, also when `update` found no candidate and
stored nothing, and the increment comes before `Done(true)`; when `update`
returns an error the counter is as before and the decision is `Done(false)`. -/
theorem count_follows_update (env : Env) (msg : Msg) (id : Int) (w0 : World) :
    ((update env id w0).1 = none →
      (process env msg id w0).count = w0.count + 1 ∧
      (process env msg id w0).trace = (update env id w0).2.trace ++
        [.CountIncr, .Done msg true, .Printf "[ID %d] ACK" [toString id]]) ∧
    (∀ err, (update env id w0).1 = some err →
      (process env msg id w0).count = w0.count ∧
      (process env msg id w0).trace = (update env id w0).2.trace ++
        [.Printf "[ID %d] could not update: %v" [toString id, err], .Done msg false]) ∧
    Event.CountIncr ∉ (update env id w0).2.since w0 := by
  obtain ⟨steps, ht, _, hni, hc, _⟩ := update_frame env id w0
  have hsteps : Event.CountIncr ∉ (update env id w0).2.since w0 := by
    rw [since_append w0 _ _ ht]; exact hni
  rcases hu : update env id w0 with ⟨r, w1⟩
  rw [hu] at hc hsteps
  simp only at hc
  refine ⟨?_, ?_, hsteps⟩
  · intro hr
    simp only at hr
    subst hr
    simp [process, hu, World.emit, hc]
  · intro err hr
    simp only at hr
    subst hr
    simp [process, hu, World.emit, hc]

/-- C8 refuted: with a lookup that offers no candidate, `update` returns nil
without handing any record to the store, the store is as before, the message
is acknowledged with `Done(true)`, and the counter has gone up by 1 although
no record was enriched or persisted. -/
theorem count_noop_counted :
    (update (reliableEnv (fun _ => [])) 1 (worldWith (blankBook 1 "a"))).1 = none ∧
    persisted ((process (reliableEnv (fun _ => [])) ⟨0, "1"⟩ 1
      (worldWith (blankBook 1 "a"))).since (worldWith (blankBook 1 "a"))) = [] ∧
    (process (reliableEnv (fun _ => [])) ⟨0, "1"⟩ 1 (worldWith (blankBook 1 "a"))).books 1 =
      (worldWith (blankBook 1 "a")).books 1 ∧
    decisions ((process (reliableEnv (fun _ => [])) ⟨0, "1"⟩ 1
      (worldWith (blankBook 1 "a"))).since (worldWith (blankBook 1 "a"))) = [(⟨0, "1"⟩, true)] ∧
    (process (reliableEnv (fun _ => [])) ⟨0, "1"⟩ 1 (worldWith (blankBook 1 "a"))).count =
      (worldWith (blankBook 1 "a")).count + 1 := by
  decide

/-! ## The claim on `syncBooksCache` -/

theorem cacheReads_append (a b : List Event) :
    cacheReads (a ++ b) = cacheReads a ++ cacheReads b := by
  induction a with
  | nil => rfl
  | cons e es ih => cases e <;> simp [cacheReads, ih]

theorem cacheWrites_append (a b : List Event) :
    cacheWrites (a ++ b) = cacheWrites a ++ cacheWrites b := by
  induction a with
  | nil => rfl
  | cons e es ih => cases e <;> simp [cacheWrites, ih]

/-- The two ways a cache read can go. -/
theorem memcacheGet_cases (env : Env) (key : String) (w : World) :
    (∃ e, memcacheGet env key w =
      (.error e, ({ w with cache := env.concurrentWrites w } : World).emit
        (.MemcacheGet key none))) ∨
    (∃ entry, env.concurrentWrites w key = some entry ∧ memcacheGet env key w =
      (.ok ⟨key, entry.Object, entry.casID⟩,
        ({ w with cache := env.concurrentWrites w } : World).emit
          (.MemcacheGet key (some ⟨key, entry.Object, entry.casID⟩)))) := by
  unfold memcacheGet
  simp only
  split
  · exact Or.inl ⟨_, rfl⟩
  · split
    · exact Or.inl ⟨_, rfl⟩
    · rename_i entry h
      exact Or.inr ⟨entry, h, rfl⟩

/-- The two ways a compare-and-swap can go. -/
theorem memcacheCompareAndSwap_cases (env : Env) (item : Item) (w : World) :
    (∃ e, memcacheCompareAndSwap env item w =
      (some e, ({ w with cache := env.concurrentWrites w } : World).emit
        (.MemcacheCAS item (some e)))) ∨
    (∃ w2, memcacheCompareAndSwap env item w = (none, w2) ∧
      w2.trace = w.trace ++ [.MemcacheCAS item none] ∧
      w2.cache item.Key = some ⟨item.Object, item.casID + 1⟩) := by
  unfold memcacheCompareAndSwap
  simp only
  split
  · exact Or.inl ⟨_, rfl⟩
  · split
    · exact Or.inl ⟨_, rfl⟩
    · rename_i cur h
      split
      · rename_i heq
        exact Or.inr ⟨_, rfl, by simp, by simp [heq]⟩
      · exact Or.inl ⟨_, rfl⟩

/-- One attempt either fails, after one cache read and without a successful
write, or reads an item and swaps in the new record list against the version
token just read. -/
theorem syncAttempt_cases (env : Env) (newBooks : List Book) (attempt : Nat) (w : World) :
    (∃ e steps, (syncAttempt env newBooks attempt w).1 = some e ∧
      (syncAttempt env newBooks attempt w).2.trace = w.trace ++ steps ∧
      (cacheReads steps).length = 1 ∧
      (∀ p ∈ cacheWrites steps, p.2 ≠ none)) ∨
    (∃ got, (syncAttempt env newBooks attempt w).1 = none ∧
      (syncAttempt env newBooks attempt w).2.trace = w.trace ++
        [.MemcacheGet env.BooksKey (some got),
         .MemcacheCAS ⟨env.BooksKey, newBooks, got.casID⟩ none] ∧
      got.Key = env.BooksKey ∧
      (syncAttempt env newBooks attempt w).2.cache env.BooksKey =
        some ⟨newBooks, got.casID + 1⟩) := by
  unfold syncAttempt
  rcases memcacheGet_cases env env.BooksKey w with ⟨e, hg⟩ | ⟨entry, _, hg⟩
  · left
    rw [hg]
    exact ⟨e, _, rfl, by simp only [World.emit, List.append_assoc]; rfl, by simp [cacheReads],
      by simp [cacheWrites]⟩
  · rw [hg]
    simp only
    rcases memcacheCompareAndSwap_cases env ⟨env.BooksKey, newBooks, entry.casID⟩
      (({ w with cache := env.concurrentWrites w } : World).emit
        (.MemcacheGet env.BooksKey (some ⟨env.BooksKey, entry.Object, entry.casID⟩)))
      with ⟨e, hc⟩ | ⟨w2, hc, ht, hcache⟩
    · left
      rw [hc]
      exact ⟨e, _, rfl, by simp only [World.emit, List.append_assoc]; rfl,
        by simp [cacheReads], by simp [cacheWrites]⟩
    · right
      rw [hc]
      exact ⟨⟨env.BooksKey, entry.Object, entry.casID⟩, rfl,
        by simp [ht, World.emit], rfl, hcache⟩

theorem retryLoop_done (action : Nat → World → Option Err × World) (fuel attempt : Nat)
    (w : World) : retryLoop action fuel (attempt + 1) none w = (none, w) := by
  cases fuel <;> simp [retryLoop]

/-- The retry loop makes at most `fuel` attempts; either none of its writes
succeeds, or its last two steps are a cache read and the successful
compare-and-swap of the new record list against the version token just read. -/
theorem retryLoop_cases (env : Env) (newBooks : List Book) (fuel : Nat) :
    ∀ (attempt : Nat) (err : Option Err) (w : World),
    ∃ steps, (retryLoop (syncAttempt env newBooks) fuel attempt err w).2.trace =
        w.trace ++ steps ∧
      (cacheReads steps).length ≤ fuel ∧
      ((∀ p ∈ cacheWrites steps, p.2 ≠ none) ∨
       (∃ pre got, steps = pre ++ [.MemcacheGet env.BooksKey (some got),
            .MemcacheCAS ⟨env.BooksKey, newBooks, got.casID⟩ none] ∧
          (∀ p ∈ cacheWrites pre, p.2 ≠ none) ∧
          (retryLoop (syncAttempt env newBooks) fuel attempt err w).2.cache env.BooksKey =
            some ⟨newBooks, got.casID + 1⟩)) := by
  induction fuel with
  | zero =>
    intro attempt err w
    exact ⟨[], by simp [retryLoop], by simp [cacheReads], Or.inl (by simp [cacheWrites])⟩
  | succ fuel ih =>
    intro attempt err w
    unfold retryLoop
    split
    · rcases ha : syncAttempt env newBooks attempt w with ⟨err2, w2⟩
      simp only
      rcases syncAttempt_cases env newBooks attempt w with
        ⟨e, steps, h1, h2, h3, h4⟩ | ⟨got, h1, h2, _, h4⟩
      · rw [ha] at h1 h2
        simp only at h1 h2
        subst h1
        obtain ⟨more, m1, m2, m3⟩ := ih (attempt + 1) (some e) w2
        refine ⟨steps ++ more, by rw [m1, h2, List.append_assoc], ?_, ?_⟩
        · rw [cacheReads_append, List.length_append, h3]; omega
        · rcases m3 with m3 | ⟨pre, got, m3, m4, m6⟩
          · left
            intro p hp
            rw [cacheWrites_append, List.mem_append] at hp
            rcases hp with hp | hp
            · exact h4 p hp
            · exact m3 p hp
          · right
            refine ⟨steps ++ pre, got, by rw [m3, List.append_assoc], ?_, m6⟩
            intro p hp
            rw [cacheWrites_append, List.mem_append] at hp
            rcases hp with hp | hp
            · exact h4 p hp
            · exact m4 p hp
      · rw [ha] at h1 h2 h4
        simp only at h1 h2 h4
        subst h1
        rw [retryLoop_done]
        refine ⟨_, h2, by simp [cacheReads], Or.inr ⟨[], got, rfl, by simp [cacheWrites], h4⟩⟩
    · exact ⟨[], by simp, by simp [cacheReads], Or.inl (by simp [cacheWrites])⟩

/-- C10: when the record list fetch fails, the cycle makes no cache read and
no cache write and leaves the cache as it was.  When the fetch returns
`newBooks`, the cycle makes at most 5 cache reads, and if one of its
compare-and-swap calls succeeds then that call is the last step of the cycle,
it comes right after the cache read whose version token it presents, it is the
only successful write of the cycle, and the cache entry afterwards holds
`newBooks` under a newer version token. -/
theorem syncCycle_publishes (env : Env) (w : World) :
    (∀ e, (ListBooks env w).1 = .error e →
      cacheReads ((syncCycle env w).since w) = [] ∧
      cacheWrites ((syncCycle env w).since w) = [] ∧
      (syncCycle env w).cache = w.cache) ∧
    (∀ newBooks, (ListBooks env w).1 = .ok newBooks →
      (cacheReads ((syncCycle env w).since w)).length ≤ 5 ∧
      ∀ item, (item, none) ∈ cacheWrites ((syncCycle env w).since w) →
        ∃ pre got, (syncCycle env w).since w = .ListBooks :: pre ++
            [.MemcacheGet env.BooksKey (some got), .MemcacheCAS item none] ∧
          item = ⟨env.BooksKey, newBooks, got.casID⟩ ∧
          (∀ p ∈ cacheWrites pre, p.2 ≠ none) ∧
          (syncCycle env w).cache env.BooksKey = some ⟨newBooks, got.casID + 1⟩) := by
  constructor
  · intro e he
    have hc : syncCycle env w = (w.emit .ListBooks).emit
        (.Printf "sync-worker: failed to get list from DB; sync failed: %v" [e]) := by
      unfold syncCycle
      unfold ListBooks at he ⊢
      simp only at he ⊢
      rw [he]
    rw [hc]
    simp [World.since, World.emit, cacheReads, cacheWrites]
  · intro newBooks hn
    have hc : syncCycle env w =
        (retryLoop (syncAttempt env newBooks) 5 0 none (w.emit .ListBooks)).2 := by
      unfold syncCycle
      unfold ListBooks at hn ⊢
      simp only at hn ⊢
      rw [hn]
      rfl
    obtain ⟨steps, h1, h2, h3⟩ := retryLoop_cases env newBooks 5 0 none (w.emit .ListBooks)
    have hs : (syncCycle env w).since w = .ListBooks :: steps := by
      apply since_append
      rw [hc, h1]
      simp [World.emit]
    rw [hs]
    refine ⟨by simpa [cacheReads] using h2, ?_⟩
    intro item hitem
    simp only [cacheWrites] at hitem
    rcases h3 with h3 | ⟨pre, got, h3, h4, h5⟩
    · exact absurd rfl (h3 _ hitem)
    · subst h3
      rw [cacheWrites_append, List.mem_append] at hitem
      rcases hitem with hitem | hitem
      · exact absurd rfl (h4 _ hitem)
      · simp only [cacheWrites, List.mem_singleton, Prod.mk.injEq, and_true] at hitem
        subst hitem
        exact ⟨pre, got, by simp, rfl, h4, by rw [hc]; exact h5⟩

/-- C10 at a cycle whose first compare-and-swap loses against another writer
and whose second attempt succeeds: the cache ends with the fetched list. -/
theorem syncCycle_publishes_witness :
    (ListBooks (racingEnv [blankBook 1 "a"]) cachedWorld).1 = .ok [blankBook 1 "a"] ∧
    (⟨"books", [blankBook 1 "a"], 8⟩, none) ∈
      cacheWrites ((syncCycle (racingEnv [blankBook 1 "a"]) cachedWorld).since cachedWorld) ∧
    (cacheReads ((syncCycle (racingEnv [blankBook 1 "a"]) cachedWorld).since
      cachedWorld)).length = 2 ∧
    (syncCycle (racingEnv [blankBook 1 "a"]) cachedWorld).cache "books" =
      some ⟨[blankBook 1 "a"], 9⟩ ∧
    ∃ pre got, (syncCycle (racingEnv [blankBook 1 "a"]) cachedWorld).since cachedWorld =
        .ListBooks :: pre ++ [.MemcacheGet (racingEnv [blankBook 1 "a"]).BooksKey (some got),
          .MemcacheCAS ⟨"books", [blankBook 1 "a"], 8⟩ none] ∧
      (⟨"books", [blankBook 1 "a"], 8⟩ : Item) =
        ⟨(racingEnv [blankBook 1 "a"]).BooksKey, [blankBook 1 "a"], got.casID⟩ ∧
      (∀ p ∈ cacheWrites pre, p.2 ≠ none) ∧
      (syncCycle (racingEnv [blankBook 1 "a"]) cachedWorld).cache
        (racingEnv [blankBook 1 "a"]).BooksKey = some ⟨[blankBook 1 "a"], got.casID + 1⟩ :=
  ⟨rfl, by decide, by decide, by decide,
    ((syncCycle_publishes (racingEnv [blankBook 1 "a"]) cachedWorld).2 [blankBook 1 "a"] rfl).2
      ⟨"books", [blankBook 1 "a"], 8⟩ (by decide)⟩

/-! ## The statements at concrete inputs -/

/-- C2 at a record with a curated description and image reference and a
candidate that offers a thumbnail: both are kept. -/
theorem update_keeps_curated_witness :
    (worldWith curatedBook).books 1 = some curatedBook ∧
    (⟨1, "t", "", "", "https://curated/cover.jpg", "curated text"⟩ : Book) ∈
      persisted ((update (reliableEnv (thumbLookup "http://x")) 1
        (worldWith curatedBook)).2.since (worldWith curatedBook)) ∧
    ((curatedBook.Description ≠ "" →
        (⟨1, "t", "", "", "https://curated/cover.jpg", "curated text"⟩ : Book).Description =
          curatedBook.Description) ∧
      (curatedBook.ImageURL ≠ "" →
        (⟨1, "t", "", "", "https://curated/cover.jpg", "curated text"⟩ : Book).ImageURL =
          curatedBook.ImageURL) ∧
      ((update (reliableEnv (thumbLookup "http://x")) 1 (worldWith curatedBook)).1 = none →
        (update (reliableEnv (thumbLookup "http://x")) 1 (worldWith curatedBook)).2.books 1 =
          some ⟨1, "t", "", "", "https://curated/cover.jpg", "curated text"⟩)) :=
  ⟨by decide, by decide,
    update_keeps_curated (reliableEnv (thumbLookup "http://x")) 1 (worldWith curatedBook)
      curatedBook ⟨1, "t", "", "", "https://curated/cover.jpg", "curated text"⟩
      (by decide) (by decide)⟩

/-- C3 at a stored record for which the lookup offers no candidate. -/
theorem update_zero_candidates_witness :
    (update (reliableEnv (fun _ => [])) 1 (worldWith (blankBook 1 "a"))).1 = none ∧
    persisted ((update (reliableEnv (fun _ => [])) 1 (worldWith (blankBook 1 "a"))).2.since
      (worldWith (blankBook 1 "a"))) = [] ∧
    indexed ((update (reliableEnv (fun _ => [])) 1 (worldWith (blankBook 1 "a"))).2.since
      (worldWith (blankBook 1 "a"))) = [] ∧
    (update (reliableEnv (fun _ => [])) 1 (worldWith (blankBook 1 "a"))).2.since
      (worldWith (blankBook 1 "a")) = [.GetBook 1, .VolumesList (blankBook 1 "a").Title] ∧
    (update (reliableEnv (fun _ => [])) 1 (worldWith (blankBook 1 "a"))).2.books =
      (worldWith (blankBook 1 "a")).books ∧
    (update (reliableEnv (fun _ => [])) 1 (worldWith (blankBook 1 "a"))).2.docs =
      (worldWith (blankBook 1 "a")).docs :=
  update_zero_candidates (reliableEnv (fun _ => [])) 1 (worldWith (blankBook 1 "a"))
    (blankBook 1 "a") rfl rfl

/-- C4 at the thumbnail `http://example.com/a.jpg`: the stored image reference
is `https://example.com/a.jpg`. -/
theorem update_thumbnail_scheme_witness :
    ∃ b, persisted ((update (reliableEnv (thumbLookup "http://example.com/a.jpg")) 1
        (worldWith (blankBook 1 "a"))).2.since (worldWith (blankBook 1 "a"))) = [b] ∧
      b.ImageURL = "https://" ++ "example.com/a.jpg" ∧
      ((update (reliableEnv (thumbLookup "http://example.com/a.jpg")) 1
          (worldWith (blankBook 1 "a"))).1 = none →
        (update (reliableEnv (thumbLookup "http://example.com/a.jpg")) 1
          (worldWith (blankBook 1 "a"))).2.books 1 = some b) :=
  update_thumbnail_scheme (reliableEnv (thumbLookup "http://example.com/a.jpg")) 1
    (worldWith (blankBook 1 "a")) (blankBook 1 "a")
    (candidate "t" (some "http://example.com/a.jpg")) []
    ⟨"http://example.com/a.jpg"⟩ "example.com/a.jpg" rfl rfl rfl (by decide) rfl

/-- C5, as amended, at the thumbnail `https://example.com/a.jpg`, in which
`http://` does not occur: it is stored as it is. -/
theorem update_thumbnail_unchanged_witness :
    ∃ b, persisted ((update (reliableEnv (thumbLookup "https://example.com/a.jpg")) 1
        (worldWith (blankBook 1 "a"))).2.since (worldWith (blankBook 1 "a"))) = [b] ∧
      b.ImageURL = (ImageLinks.mk "https://example.com/a.jpg").Thumbnail ∧
      ((update (reliableEnv (thumbLookup "https://example.com/a.jpg")) 1
          (worldWith (blankBook 1 "a"))).1 = none →
        (update (reliableEnv (thumbLookup "https://example.com/a.jpg")) 1
          (worldWith (blankBook 1 "a"))).2.books 1 = some b) :=
  update_thumbnail_unchanged (reliableEnv (thumbLookup "https://example.com/a.jpg")) 1
    (worldWith (blankBook 1 "a")) (blankBook 1 "a")
    (candidate "t" (some "https://example.com/a.jpg")) []
    ⟨"https://example.com/a.jpg"⟩ rfl rfl rfl (by decide) rfl

/-- C5 refuted: the thumbnail `https://a/http://b` begins with `https://` and
does not begin with `http://`, the record's image reference is empty, and the
image reference handed to the store is `https://a/https://b`, not the
thumbnail. -/
theorem update_thumbnail_rewritten_inside :
    "https://".data <+: "https://a/http://b".data ∧
    ¬ "http://".data <+: "https://a/http://b".data ∧
    (blankBook 1 "a").ImageURL = "" ∧
    (persisted ((update (reliableEnv (thumbLookup "https://a/http://b")) 1
      (worldWith (blankBook 1 "a"))).2.since (worldWith (blankBook 1 "a")))).map
        (fun b => b.ImageURL) = ["https://a/https://b"] ∧
    ((update (reliableEnv (thumbLookup "https://a/http://b")) 1
      (worldWith (blankBook 1 "a"))).2.books 1).map (fun b => b.ImageURL) ≠
        some "https://a/http://b" := by
  decide

/-- C6 at an index whose `Put` always fails: the index update fails and
`update` still returns nil. -/
theorem update_error_iff_witness :
    indexFails (brokenIndexEnv (thumbLookup "http://x")) 1 (worldWith (blankBook 1 "a")) ∧
    (update (brokenIndexEnv (thumbLookup "http://x")) 1 (worldWith (blankBook 1 "a"))).1 = none :=
  ⟨⟨blankBook 1 "a", candidate "t" (some "http://x"), [], "search: unavailable",
      rfl, rfl, rfl, rfl⟩,
    (update_error_iff (brokenIndexEnv (thumbLookup "http://x")) 1
      (worldWith (blankBook 1 "a"))).2.1
      ⟨blankBook 1 "a", candidate "t" (some "http://x"), [], "search: unavailable",
        rfl, rfl, rfl, rfl⟩⟩

/-- C9 at the payload `x`, which is no identifier, delivered once and followed
by a decodable message whose goroutine runs at once: one `Done(true)` on it, no
`Done(false)`, and the next message is handled. -/
theorem poison_acknowledged_witness :
    (reliableEnv (fun _ => [])).unmarshal (⟨1, "x"⟩ : Msg).Data =
      .error "json: cannot unmarshal into Go value of type int64" ∧
    (pulled [.ok ⟨1, "x"⟩, .ok ⟨2, "1"⟩]).count ⟨1, "x"⟩ = 1 ∧
    timesDone ⟨1, "x"⟩ true ((subscribe (reliableEnv (fun _ => []))
      (.ok [.ok ⟨1, "x"⟩, .ok ⟨2, "1"⟩]) [[], [0]] (worldWith (blankBook 1 "a"))).2.1.since
        (worldWith (blankBook 1 "a"))) = (pulled [.ok ⟨1, "x"⟩, .ok ⟨2, "1"⟩]).count ⟨1, "x"⟩ ∧
    timesDone ⟨1, "x"⟩ false ((subscribe (reliableEnv (fun _ => []))
      (.ok [.ok ⟨1, "x"⟩, .ok ⟨2, "1"⟩]) [[], [0]] (worldWith (blankBook 1 "a"))).2.1.since
        (worldWith (blankBook 1 "a"))) = 0 ∧
    decisions ((subscribe (reliableEnv (fun _ => []))
      (.ok [.ok ⟨1, "x"⟩, .ok ⟨2, "1"⟩]) [[], [0]] (worldWith (blankBook 1 "a"))).2.1.since
        (worldWith (blankBook 1 "a"))) = [(⟨1, "x"⟩, true), (⟨2, "1"⟩, true)] ∧
    (subscribe (reliableEnv (fun _ => []))
      (.ok [.ok ⟨1, "x"⟩, .ok ⟨2, "1"⟩]) [[], [0]] (worldWith (blankBook 1 "a"))).2.1.count = 1 :=
  ⟨rfl, by decide,
    (poison_acknowledged (reliableEnv (fun _ => [])) [.ok ⟨1, "x"⟩, .ok ⟨2, "1"⟩] [[], [0]]
      (worldWith (blankBook 1 "a")) ⟨1, "x"⟩
      "json: cannot unmarshal into Go value of type int64" rfl).1,
    (poison_acknowledged (reliableEnv (fun _ => [])) [.ok ⟨1, "x"⟩, .ok ⟨2, "1"⟩] [[], [0]]
      (worldWith (blankBook 1 "a")) ⟨1, "x"⟩
      "json: cannot unmarshal into Go value of type int64" rfl).2.1,
    by decide, by decide⟩

/-- C7, as amended, at the payload `1` delivered once with no pull error and a
record stored under identifier `1`: one decision on the message, `Done(true)`,
and nothing left pending. -/
theorem task_decides_once_witness :
    (reliableEnv (thumbLookup "http://x")).unmarshal (⟨0, "1"⟩ : Msg).Data = .ok 1 ∧
    (subscribe (reliableEnv (thumbLookup "http://x")) (.ok [.ok ⟨0, "1"⟩]) []
      (worldWith (blankBook 1 "a"))).1 = .Waiting ∧
    decisions ((subscribe (reliableEnv (thumbLookup "http://x")) (.ok [.ok ⟨0, "1"⟩]) []
      (worldWith (blankBook 1 "a"))).2.1.since (worldWith (blankBook 1 "a"))) =
        [(⟨0, "1"⟩, true)] ∧
    ((subscribe (reliableEnv (thumbLookup "http://x")) (.ok [.ok ⟨0, "1"⟩]) []
        (worldWith (blankBook 1 "a"))).2.2 = [] ∧
      timesDone ⟨0, "1"⟩ true ((subscribe (reliableEnv (thumbLookup "http://x"))
          (.ok [.ok ⟨0, "1"⟩]) [] (worldWith (blankBook 1 "a"))).2.1.since
            (worldWith (blankBook 1 "a"))) +
        timesDone ⟨0, "1"⟩ false ((subscribe (reliableEnv (thumbLookup "http://x"))
          (.ok [.ok ⟨0, "1"⟩]) [] (worldWith (blankBook 1 "a"))).2.1.since
            (worldWith (blankBook 1 "a"))) = (pulled [.ok ⟨0, "1"⟩]).count ⟨0, "1"⟩) :=
  ⟨rfl, by decide, by decide,
    (task_decides_once (reliableEnv (thumbLookup "http://x")) [.ok ⟨0, "1"⟩] []
      (worldWith (blankBook 1 "a")) ⟨0, "1"⟩ 1 rfl).2.1 (by decide)⟩

end Bookshelf
